import Mathlib

/-!
Verification model of the crmint pipeline execution core
(`backends/core/models.py`).

The embedding is shallow: every relevant Python function of `models.py` is
translated into an executable Lean definition over an explicit system state
(database rows, shared cache, task queue, mailer).  External collaborators
that are not part of the repository source tree (`core.cache`,
`google.appengine.api.taskqueue`, `core.mailers`, the `simpleeval` library,
the Python uuid module) are modelled from the specification, as indicated in
the doc comments of the corresponding definitions.
-/

/-! ### Python-style string primitives

These model the exact Python string operations `models.py` relies on
(`str.strip` as used by `int()`/`float()` conversion, `str.split('\n')`,
`str.replace`, regex scanning for `{%.+?%}`).  They are written as
structurally recursive functions so that concrete runs reduce inside the
kernel. -/

/-- Characters treated as whitespace by the Python method `str.strip()` and by the
whitespace-tolerant `int()` / `float()` conversions. -/
def isPySpace (c : Char) : Bool :=
  c == ' ' || c == '\t' || c == '\n' || c == '\r' || c == '\x0b' || c == '\x0c'

/-- Python `str.strip()` on a character list. -/
def pyStrip (l : List Char) : List Char :=
  ((l.dropWhile isPySpace).reverse.dropWhile isPySpace).reverse

/-- Value of a list of decimal digits. -/
def digitsToNat (l : List Char) : Nat :=
  l.foldl (fun acc c => 10 * acc + (c.toNat - '0'.toNat)) 0

/-- Python `int(s)`: optional surrounding whitespace, an optional sign and a
nonempty run of decimal digits; `none` models the `ValueError`. -/
def pyInt? (s : String) : Option Int :=
  let t := pyStrip s.data
  let signed : Int × List Char :=
    match t with
    | '-' :: r => (-1, r)
    | '+' :: r => (1, r)
    | r => (1, r)
  if !signed.2.isEmpty && signed.2.all Char.isDigit then
    some (signed.1 * (digitsToNat signed.2 : Int))
  else none

/-- Exponent part of a Python float literal: either nothing, or `e`/`E`
followed by an optional sign and digits.  `none` models a parse failure. -/
def parseExpPart : List Char → Option Int
  | [] => some 0
  | c :: r =>
    if c == 'e' || c == 'E' then
      let signed : Int × List Char :=
        match r with
        | '-' :: r2 => (-1, r2)
        | '+' :: r2 => (1, r2)
        | r2 => (1, r2)
      if !signed.2.isEmpty && signed.2.all Char.isDigit then
        some (signed.1 * (digitsToNat signed.2 : Int))
      else none
    else none

/-- Python `float(s)` on decimal literals, with the exact value kept as a
rational.  The special strings `inf`/`infinity`/`nan` and binary64 rounding
are not modelled: no code path of the claims produces them, and every claim
about `_parse_num` is decided either by an integer parse or by a parse
failure. -/
def pyFloat? (s : String) : Option Rat :=
  let t := pyStrip s.data
  let signed : Int × List Char :=
    match t with
    | '-' :: r => (-1, r)
    | '+' :: r => (1, r)
    | r => (1, r)
  let r1 := signed.2
  let intDs := r1.takeWhile Char.isDigit
  let r2 := r1.drop intDs.length
  let fracPart : List Char × List Char × Bool :=
    match r2 with
    | '.' :: rr => (rr.takeWhile Char.isDigit, rr.drop (rr.takeWhile Char.isDigit).length, true)
    | _ => ([], r2, false)
  let fracDs := fracPart.1
  let r3 := fracPart.2.1
  let hasDot := fracPart.2.2
  if intDs.isEmpty && (!hasDot || fracDs.isEmpty) then none
  else
    match parseExpPart r3 with
    | none => none
    | some e =>
      let mant : Rat := ((signed.1 * (digitsToNat (intDs ++ fracDs) : Int) : Int) : Rat) /
        ((10 : Rat) ^ fracDs.length)
      some (if 0 ≤ e then mant * (10 : Rat) ^ e.toNat else mant / (10 : Rat) ^ (-e).toNat)

/-- A Python number as produced by `_parse_num`: an `int` or a `float`. -/
inductive PyNum where
  | int (i : Int)
  | float (q : Rat)
  deriving DecidableEq, Repr

/-- models.py `_parse_num` (lines 43-51): try `int(s)`, then `float(s)`,
and silently return the integer `0` when both raise `ValueError`. -/
def _parse_num (s : String) : PyNum :=
  match pyInt? s with
  | some i => PyNum.int i
  | none =>
    match pyFloat? s with
    | some q => PyNum.float q
    | none => PyNum.int 0

/-- Python `"a\nb".split` on a newline, keeping empty entries. -/
def splitNlGo : List Char → List (List Char)
  | [] => [[]]
  | '\n' :: rest => [] :: splitNlGo rest
  | c :: rest =>
    match splitNlGo rest with
    | g :: gs => (c :: g) :: gs
    | [] => [[c]]

/-- Python `s.split('\n')`. -/
def splitNl (s : String) : List String :=
  (splitNlGo s.data).map (fun l => String.mk l)

/-- One replacement pass of Python `str.replace`: scan left to right,
replacing each non-overlapping occurrence of the (nonempty) pattern. -/
def pyReplaceGo (pat rep : List Char) : Nat → List Char → List Char
  | 0, l => l
  | _ + 1, [] => []
  | fuel + 1, c :: rest =>
    if pat.isPrefixOf (c :: rest) then
      rep ++ pyReplaceGo pat rep fuel ((c :: rest).drop pat.length)
    else
      c :: pyReplaceGo pat rep fuel rest

/-- Python `s.replace(pat, rep)`.  The empty-pattern case (which Python
treats as insertion between every character) never arises: the patterns
passed in `models.py` are regex matches of `\x7b%.+?%\x7d`, hence nonempty. -/
def pyReplace (s pat rep : String) : String :=
  if pat.data.isEmpty then s else String.mk (pyReplaceGo pat.data rep.data s.data.length s.data)

/-! ### The inliner regex `\x7b%.+?%\x7d`

`Param._INLINER_REGEX.findall(value)` scans for non-overlapping matches of
the non-greedy pattern: a literal open-brace + percent, one or more
characters other than a newline (Python `.` does not cross newlines), then
the earliest percent + close-brace. -/

/-- Search for the earliest `%` + close-brace after at least one content
character has been consumed; `acc` holds the reversed content so far and is
nonempty by construction. -/
def findCloseGo (acc : List Char) : List Char → Option (List Char × List Char)
  | '%' :: '}' :: rest => some (acc.reverse, rest)
  | c :: rest => if c == '\n' then none else findCloseGo (c :: acc) rest
  | [] => none

/-- Consume the mandatory first content character (the `.+?` of the regex
must match at least one character), then search for the closing `%`-brace. -/
def findCloseStart : List Char → Option (List Char × List Char)
  | c :: rest => if c == '\n' then none else findCloseGo [c] rest
  | [] => none

/-- Left-to-right scan collecting all non-overlapping matches of the inliner
regex.  The fuel argument is initialised with the length of the input; every
step consumes at least one character, so the fuel never runs out. -/
def findAllGo : Nat → List Char → List String
  | 0, _ => []
  | _ + 1, [] => []
  | fuel + 1, '{' :: '%' :: rest =>
    match findCloseStart rest with
    | some (mid, tail) =>
      String.mk ('{' :: '%' :: (mid ++ ['%', '}'])) :: findAllGo fuel tail
    | none => findAllGo fuel rest
  | fuel + 1, _ :: rest => findAllGo fuel rest

/-- `Param._INLINER_REGEX.findall(value)` (line 554 / 564). -/
def findInliners (s : String) : List String :=
  findAllGo s.data.length s.data

/-- Python slicing `inliner[2:-2]`: strip the two-character delimiters. -/
def innerOf (s : String) : String :=
  String.mk ((s.data.drop 2).take (s.data.length - 4))

/-! ### Parameter Resolver (models.py `Param`, lines 542-624)

Params live in three scopes: global (`pipeline_id` and `job_id` both null),
pipeline-scoped, and job-scoped.  `Param.val` coerces the expanded raw value
to the declared type; `Param._expand_vars` substitutes each `\x7b% expr %\x7d`
inliner by the stringified result of evaluating `expr` against the scoped
name bindings. -/

/-- A runtime parameter value as produced by `Param.val`. -/
inductive PVal where
  | b (v : Bool)
  | num (n : PyNum)
  | s (v : String)
  | strList (l : List String)
  | numList (l : List PyNum)
  deriving DecidableEq, Repr

/-- Python `str(result)` as applied to an inliner evaluation result
(line 568).  The claims only exercise the string, integer and boolean
cases; the float and list renderings are conventional placeholders and are
never reached by any theorem below. -/
def pyStr : PVal → String
  | PVal.b true => "True"
  | PVal.b false => "False"
  | PVal.num (PyNum.int i) => toString i
  | PVal.num (PyNum.float q) => toString q
  | PVal.s v => v
  | PVal.strList l => toString l
  | PVal.numList _ => ""

/-- A row of the `params` table.  `type` is the declared wire type
(`string`, `number`, `boolean`, `string_list`, `number_list`). -/
structure ParamRec where
  id : Nat
  name : String
  type : String
  pipeline_id : Option Nat
  job_id : Option Nat
  value : String
  deriving DecidableEq, Repr

/-- The database context a `Param` evaluation sees: all param rows plus the
`job -> owning pipeline` foreign-key mapping used by `self.job.pipeline`. -/
structure ParamEnv where
  params : List ParamRec
  jobPipelines : List (Nat × Nat)
  deriving Repr

/-- Global params: `Param.where(pipeline_id=None, job_id=None).all()`
(line 559), in database order. -/
def globalsOf (env : ParamEnv) : List ParamRec :=
  env.params.filter (fun p => p.pipeline_id == none && p.job_id == none)

/-- Strict character-code comparison used to model the `asc(Param.name)`
ordering of the `Pipeline.params` relationship (line 65). -/
def charListLt : List Char → List Char → Bool
  | [], [] => false
  | [], _ :: _ => true
  | _ :: _, [] => false
  | a :: as, b :: bs =>
    if a.toNat < b.toNat then true
    else if b.toNat < a.toNat then false
    else charListLt as bs

/-- Insert a param into a name-sorted list, after any equal names. -/
def insertByName (p : ParamRec) : List ParamRec → List ParamRec
  | [] => [p]
  | q :: rest =>
    if charListLt p.name.data q.name.data then p :: q :: rest
    else q :: insertByName p rest

/-- Sort params by name ascending (stable insertion sort), modelling the
`order_by='asc(Param.name)'` of the `Pipeline.params` relationship. -/
def sortParamsByName : List ParamRec → List ParamRec
  | [] => []
  | p :: rest => insertByName p (sortParamsByName rest)

/-- Params of the pipeline owning job `jid`: `self.job.pipeline.params`
(line 562).  A job without a pipeline row would raise in Python; the claims
only use well-formed foreign keys, for which the lookup succeeds. -/
def pipelineParamsOfJob (env : ParamEnv) (jid : Nat) : List ParamRec :=
  match (env.jobPipelines.find? (fun e => e.1 == jid)).map (fun e => e.2) with
  | some pid => sortParamsByName (env.params.filter (fun p => p.pipeline_id == some pid))
  | none => []

/-- Last-binding-wins lookup in a name table, modelling Python dict
assignment order. -/
def lookupName (ns : List (String × PVal)) (n : String) : Option PVal :=
  (ns.reverse.find? (fun e => e.1 == n)).map (fun e => e.2)

/-- Modelled from the spec: the restricted expression evaluator
(`simple_eval` of the external `simpleeval` library, not part of this
repository).  Per spec section 4.1 it evaluates the inliner body against the
name bindings — literals, arithmetic, comparison and name lookup — and fails
on unknown names (`InvalidExpression`).  Only the fragment the claims
exercise is modelled: an integer literal evaluates to itself and a bare name
looks up its binding; everything else fails. -/
def simple_eval (expr : String) (names : List (String × PVal)) : Option PVal :=
  let t := String.mk (pyStrip expr.data)
  match pyInt? t with
  | some i => some (PVal.num (PyNum.int i))
  | none => lookupName names t

/-- Add `name -> eval1 param` bindings for a list of params, propagating an
evaluation failure (lines 559-563: `names[param.name] = param.val`). -/
def addParams (eval1 : ParamRec → Option PVal) (ns : List (String × PVal)) :
    List ParamRec → Option (List (String × PVal))
  | [] => some ns
  | p :: rest =>
    match eval1 p with
    | some v => addParams eval1 (ns ++ [(p.name, v)]) rest
    | none => none

/-- The name table `Param._expand_vars` builds (lines 556-563): start with
`True`/`False`; if the param has any scope add the value of every global param;
if it is job-scoped also add the params of the owning pipeline. -/
def buildNames (eval1 : ParamRec → Option PVal) (env : ParamEnv) (p : ParamRec) :
    Option (List (String × PVal)) :=
  let base : List (String × PVal) := [("True", PVal.b true), ("False", PVal.b false)]
  let withGlobals :=
    if p.job_id ≠ none ∨ p.pipeline_id ≠ none then addParams eval1 base (globalsOf env)
    else some base
  match withGlobals with
  | none => none
  | some ns1 =>
    match p.job_id with
    | some jid => addParams eval1 ns1 (pipelineParamsOfJob env jid)
    | none => some ns1

/-- The substitution loop of `Param._expand_vars` (lines 564-569): find all
inliners in the original value, then for each one replace every occurrence
of the inliner text by the stringified evaluation result.  `none` models a
propagated `InvalidExpression`. -/
def expandLoop (names : List (String × PVal)) : List String → String → Option String
  | [], v => some v
  | inl :: rest, v =>
    match simple_eval (innerOf inl) names with
    | some r => expandLoop names rest (pyReplace v inl (pyStr r))
    | none => none

/-- `Param._expand_vars(value)` given a prebuilt name table. -/
def _expand_vars (names : List (String × PVal)) (value : String) : Option String :=
  expandLoop names (findInliners value) value

/-- Whether a line survives the `if l.strip()` filter of the `number_list`
coercion (line 581). -/
def lineKept (s : String) : Bool :=
  !(pyStrip s.data).isEmpty

/-- `Param.val` (lines 571-582) with explicit recursion fuel.  The recursion
is through the name table: a job-scoped param evaluates the owning
params of its pipeline and the globals, a pipeline-scoped param evaluates the
globals, and a global param binds no other params at all (the scope guard on
line 558 fails), so the recursion depth of any scope-legal table is at most
three and `fuel = 3` computes the source exactly. -/
def valF : Nat → ParamEnv → ParamRec → Option PVal
  | 0, _, _ => none
  | fuel + 1, env, p =>
    if p.type = "boolean" then some (PVal.b (p.value == "1"))
    else
      match buildNames (valF fuel env) env p with
      | none => none
      | some ns =>
        match _expand_vars ns p.value with
        | none => none
        | some v =>
          if p.type = "number" then some (PVal.num (_parse_num v))
          else if p.type = "string_list" then some (PVal.strList (splitNl v))
          else if p.type = "number_list" then
            some (PVal.numList (((splitNl v).filter lineKept).map _parse_num))
          else some (PVal.s v)

/-- `Param.val`: the property getter, with the fuel fixed at the maximal
scope-chain depth (see `valF`). -/
def Param.val (env : ParamEnv) (p : ParamRec) : Option PVal :=
  valF 3 env p

/-! ### System state (database rows, shared cache, task queue, mailer)

The state machine claims concern a single pipeline, the rows of its jobs
and start conditions, the shared counter cache, the task queue and the
notification mailer.  The shared cache (`core.cache`, imported as
`memcache_client`) is not under the source tree; following spec section 4.3
it is modelled as a string-keyed store offering an unconditional `set` and
an atomic update-by-function, read with fallback handled at the call sites.
Values at counter keys are integers, at status keys strings and at the
task-list key string lists; the model types the store accordingly. -/

/-- A cached value: an integer counter, a status string or a task-name
list. -/
inductive CacheVal where
  | int (i : Int)
  | str (s : String)
  | list (l : List String)
  deriving DecidableEq, Repr

/-- A row of the `jobs` table (the columns the core reads or writes). -/
structure JobRec where
  id : Nat
  name : String
  status : String
  status_changed_at : Option Nat
  worker_class : String
  pipeline_id : Nat
  enqueued_workers_count : Int
  deriving DecidableEq, Repr

/-- A row of the `start_conditions` table: the directed edge
`preceding_job -> job` with its condition token. -/
structure StartConditionRec where
  job_id : Nat
  preceding_job_id : Nat
  condition : String
  deriving DecidableEq, Repr

/-- A row of the `pipelines` table (the columns the core reads or writes). -/
structure PipelineRec where
  id : Nat
  name : String
  status : String
  status_changed_at : Option Nat
  deriving DecidableEq, Repr

/-- Modelled from the spec: a task submitted to the external task queue
(`taskqueue.add`, line 425), flattening the payload dict
`(job_id, worker_class, worker_params(JSON), task_name)` into fields.
Worker params are carried as their JSON serialization, since `json.dumps`
is external to the repository. -/
structure TaskRec where
  target : String
  name : String
  url : String
  job_id : Nat
  worker_class : String
  worker_params : String
  task_name : String
  countdown : Nat
  deriving DecidableEq, Repr

/-- The whole system state.  `uuids` is a supply of fresh identifiers
modelling the nondeterminism of `uuid.uuid4()`; `now` models the wall clock
read by `datetime.now()`; `mailerNotifications` counts calls of
`NotificationMailer().finished_pipeline` (external to the source tree). -/
structure SysState where
  pipeline : PipelineRec
  jobs : List JobRec
  conditions : List StartConditionRec
  cache : List (String × CacheVal)
  taskQueue : List TaskRec
  mailerNotifications : Nat
  uuids : List String
  now : Nat
  deriving DecidableEq, Repr

/-- Modelled from the spec: `memcache_client` read of a key (`core.cache` is
not under the source tree; spec section 4.3 gives the two primitives). -/
def cacheGet (st : SysState) (k : String) : Option CacheVal :=
  (st.cache.find? (fun e => e.1 == k)).map (fun e => e.2)

/-- Modelled from the spec: unconditional `memcache_client.set_cache`. -/
def cacheSet (st : SysState) (k : String) (v : CacheVal) : SysState :=
  { st with cache := (k, v) :: st.cache.filter (fun e => e.1 != k) }

/-- Read a counter key as an integer; a missing key or (unreachable for the
modelled operations) non-integer value reads as absent, matching the `None`
the Python client hands the update closures. -/
def cacheGetInt (st : SysState) (k : String) : Option Int :=
  match cacheGet st k with
  | some (CacheVal.int i) => some i
  | _ => none

/-- Job lookup by primary key. -/
def getJob (st : SysState) (jid : Nat) : Option JobRec :=
  st.jobs.find? (fun j => j.id == jid)

/-- Persist an updated job row (Python mutates the ORM object in place). -/
def setJob (st : SysState) (j : JobRec) : SysState :=
  { st with jobs := st.jobs.map (fun x => if x.id == j.id then j else x) }

/-- `Pipeline._get_pipeline_prefix` / `Job._get_pipeline_prefix`
(lines 86-87, 257-258): `str(id) + "_"`. -/
def pipelineKeyPart (pid : Nat) : String := toString pid ++ "_"

/-- `Job._get_job_prefix` (lines 260-261): `str(id) + "_"`. -/
def jobKeyPart (jid : Nat) : String := toString jid ++ "_"

/-- Cache key `<pipeline_id>_<job_id>_status` (line 279). -/
def statusKey (pid jid : Nat) : String :=
  pipelineKeyPart pid ++ jobKeyPart jid ++ "status"

/-- Cache key `<pipeline_id>_<job_id>_enqueued_tasks`: the caller passes
`<job_id>_enqueued_tasks` and `_increase_value_cache` prepends the pipeline
part (lines 329, 432, 457). -/
def enqueuedTasksKey (pid jid : Nat) : String :=
  pipelineKeyPart pid ++ (jobKeyPart jid ++ "enqueued_tasks")

/-- Cache key `<pipeline_id>_list_of_tasks_enqueued` (line 354). -/
def listKey (pid : Nat) : String :=
  pipelineKeyPart pid ++ "list_of_tasks_enqueued"

/-- Cache key `<pipeline_id>_failed_jobs` (line 443 via line 329). -/
def failedJobsKey (pid : Nat) : String :=
  pipelineKeyPart pid ++ "failed_jobs"

/-- Cache key `<pipeline_id>_remaining_jobs` (line 444 via line 344). -/
def remainingJobsKey (pid : Nat) : String :=
  pipelineKeyPart pid ++ "remaining_jobs"

/-! ### Cache counter operations (models.py lines 323-369) -/

/-- The update closure built by `Job._increase_value_cache` together with
the eager seed adjustment `db_value = db_value + 1 if db_value else 1`
(line 330): Python truthiness sends both a missing and a zero value to the
seed branch. -/
def increase_handler (db_value : Option Int) (cached : Option Int) : Int :=
  let db : Int :=
    match db_value with
    | some d => if d ≠ 0 then d + 1 else 1
    | none => 1
  match cached with
  | some c => if c ≠ 0 then c + 1 else db
  | none => db

/-- The update closure built by `Job._decrease_value_cache` together with
the eager seed adjustment `db_value = db_value - 1 if db_value else 0`
(line 345). -/
def decrease_handler (db_value : Option Int) (cached : Option Int) : Int :=
  let db : Int :=
    match db_value with
    | some d => if d ≠ 0 then d - 1 else 0
    | none => 0
  match cached with
  | some c => if c ≠ 0 then c - 1 else db
  | none => db

/-- `Job._increase_value_cache(key, db_value)` (lines 323-336): prepend the
pipeline part and apply the increase closure atomically. -/
def _increase_value_cache (st : SysState) (pid : Nat) (key : String)
    (db_value : Option Int) : SysState :=
  let k := pipelineKeyPart pid ++ key
  cacheSet st k (CacheVal.int (increase_handler db_value (cacheGetInt st k)))

/-- `Job._decrease_value_cache(key, db_value)` (lines 338-351). -/
def _decrease_value_cache (st : SysState) (pid : Nat) (key : String)
    (db_value : Option Int) : SysState :=
  let k := pipelineKeyPart pid ++ key
  cacheSet st k (CacheVal.int (decrease_handler db_value (cacheGetInt st k)))

/-- The current task-name list, as the update closures see it. -/
def taskListOf (st : SysState) (pid : Nat) : List String :=
  match cacheGet st (listKey pid) with
  | some (CacheVal.list l) => l
  | _ => []

/-- `Job._add_task_name_cache(task_name)` (lines 353-360). -/
def _add_task_name_cache (st : SysState) (pid : Nat) (task_name : String) : SysState :=
  let l := taskListOf st pid
  cacheSet st (listKey pid) (CacheVal.list (if l.isEmpty then [task_name] else l ++ [task_name]))

/-- `Job._delete_task_name_cache(task_name)` (lines 362-369): filter the
name out; filtering an absent name is the identity on the list. -/
def _delete_task_name_cache (st : SysState) (pid : Nat) (task_name : String) : SysState :=
  let l := taskListOf st pid
  cacheSet st (listKey pid)
    (CacheVal.list (if l.isEmpty then [] else l.filter (fun t => t != task_name)))

/-! ### Job state machine (models.py lines 278-477) -/

/-- `Job.get_status` (lines 278-280): the effective status, read from the
cache with fallback to the persisted column.  Only status strings are ever
written at status keys; a non-string value (unreachable) falls back too. -/
def Job.get_status (st : SysState) (j : JobRec) : String :=
  match cacheGet st (statusKey j.pipeline_id j.id) with
  | some (CacheVal.str s) => s
  | _ => j.status

/-- `Job.prepare_for_start` (lines 282-291): allowed from `idle`,
`succeeded` or `failed`; writes `waiting` into the cache status key. -/
def Job.prepare_for_start (st : SysState) (jid : Nat) : SysState × Bool :=
  match getJob st jid with
  | none => (st, false)
  | some j =>
    if (["idle", "succeeded", "failed"].contains (Job.get_status st j)) then
      (cacheSet st (statusKey j.pipeline_id j.id) (CacheVal.str "waiting"), true)
    else (st, false)

/-- `Job.get_ready` (lines 293-321): pre-materialize every param, then
`prepare_for_start`.  State-machine jobs are modelled without params (the
`Param` table and its evaluation are embedded separately above), so the
param loop always succeeds and `get_ready` reduces to `prepare_for_start`;
the structured error logging has no effect on the modelled state. -/
def Job.get_ready (st : SysState) (jid : Nat) : SysState × Bool :=
  Job.prepare_for_start st jid

/-- `Job.set_failed_status` (lines 442-448): bump `failed_jobs`, decrement
`remaining_jobs` seeded with the job count of the pipeline, write the cache
status, persist the row and mark the in-memory pipeline failed. -/
def Job.set_failed_status (st : SysState) (jid : Nat) : SysState :=
  match getJob st jid with
  | none => st
  | some j =>
    let pid := j.pipeline_id
    let n : Int := (st.jobs.filter (fun x => x.pipeline_id == pid)).length
    let st1 := _increase_value_cache st pid "failed_jobs" none
    let st2 := _decrease_value_cache st1 pid "remaining_jobs" (some n)
    let st3 := cacheSet st2 (statusKey pid j.id) (CacheVal.str "failed")
    let st4 := setJob st3 { j with status := "failed", status_changed_at := some st3.now }
    { st4 with pipeline :=
        if st4.pipeline.id == pid then { st4.pipeline with status := "failed" }
        else st4.pipeline }

/-- `Job.set_succeeded_status` (lines 450-453). -/
def Job.set_succeeded_status (st : SysState) (jid : Nat) : SysState :=
  match getJob st jid with
  | none => st
  | some j =>
    let pid := j.pipeline_id
    let n : Int := (st.jobs.filter (fun x => x.pipeline_id == pid)).length
    let st1 := _decrease_value_cache st pid "remaining_jobs" (some n)
    let st2 := cacheSet st1 (statusKey pid j.id) (CacheVal.str "succeeded")
    setJob st2 { j with status := "succeeded", status_changed_at := some st2.now }

/-- `Job.stop` (lines 403-410): decided on the persisted `self.status`
column, not on the cache-backed effective status. -/
def Job.stop (st : SysState) (jid : Nat) : SysState × Bool :=
  match getJob st jid with
  | none => (st, false)
  | some j =>
    if j.status = "waiting" then
      (setJob st { j with status := "failed", status_changed_at := some st.now }, true)
    else if j.status = "running" then
      (setJob st { j with status := "stopping", status_changed_at := some st.now }, true)
    else (st, false)

/-- Modelled from the spec: minting `str(uuid.uuid4())` (line 417) draws a
fresh identifier from an external supply; an exhausted supply yields the
empty string (never reached in the concrete runs below). -/
def freshUuid (st : SysState) : String × SysState :=
  match st.uuids with
  | [] => ("", st)
  | u :: rest => (u, { st with uuids := rest })

/-- One character of `re.sub(r'[^-_0-9a-zA-Z]', '-', task_name)`
(line 416). -/
def escapeChar (c : Char) : Char :=
  if ('0' ≤ c ∧ c ≤ '9') ∨ ('a' ≤ c ∧ c ≤ 'z') ∨ ('A' ≤ c ∧ c ≤ 'Z') ∨ c = '-' ∨ c = '_'
  then c else '-'

/-- The task-name sanitizer of `Job.enqueue` (line 416). -/
def escapeTaskName (s : String) : String :=
  String.mk (s.data.map escapeChar)

/-- `Job.enqueue(worker_class, worker_params, delay)` (lines 412-434).
The task name is built from `self.pipeline.name`, `self.name` and
`self.worker_class` — the **stored** worker class of the job, not the
`worker_class` argument (which only enters the payload).  The model carries
a single pipeline, to which all well-formed jobs belong, so
`self.pipeline.name` reads `st.pipeline.name`. -/
def Job.enqueue (st : SysState) (jid : Nat) (worker_class : String)
    (worker_params : String) (delay : Nat) : SysState × Bool :=
  match getJob st jid with
  | none => (st, false)
  | some j =>
    if Job.get_status st j ≠ "running" then (st, false)
    else
      let task_name := st.pipeline.name ++ "_" ++ j.name ++ "_" ++ j.worker_class
      let escaped := escapeTaskName task_name
      let pair := freshUuid st
      let unique_task_name := escaped ++ "_" ++ pair.1
      let st2 := _add_task_name_cache pair.2 j.pipeline_id unique_task_name
      let task : TaskRec :=
        { target := "job-service", name := unique_task_name, url := "/task",
          job_id := j.id, worker_class := worker_class,
          worker_params := worker_params, task_name := unique_task_name,
          countdown := delay }
      let st3 := { st2 with taskQueue := st2.taskQueue ++ [task] }
      let st4 := setJob st3 { j with enqueued_workers_count := j.enqueued_workers_count + 1 }
      let st5 := _increase_value_cache st4 j.pipeline_id
        (jobKeyPart j.id ++ "enqueued_tasks") none
      (st5, true)

/-- `Job.run` (lines 396-401): reset `enqueued_workers_count`, write
`running` into the cache status, and enqueue one task under the own
worker class.  The worker-params dict of a (param-free) modelled job
serializes to the empty JSON object. -/
def Job.run (st : SysState) (jid : Nat) : SysState :=
  match getJob st jid with
  | none => st
  | some j =>
    let st1 := setJob st { j with enqueued_workers_count := 0 }
    let st2 := cacheSet st1 (statusKey j.pipeline_id j.id) (CacheVal.str "running")
    (Job.enqueue st2 jid j.worker_class "\x7b\x7d" 0).1

/-- `Job._start_condition_is_fulfuilled` (lines 371-379, name as in the
source): `success` fails only on a `failed` predecessor, `fail` only on a
`succeeded` one, anything else passes. -/
def Job._start_condition_is_fulfuilled (st : SysState) (sc : StartConditionRec) : Bool :=
  let preceding_job_status :=
    match getJob st sc.preceding_job_id with
    | some pj => Job.get_status st pj
    | none => ""
  if sc.condition = "success" then !(preceding_job_status == "failed")
  else if sc.condition = "fail" then !(preceding_job_status == "succeeded")
  else true

/-- Effective status of the preceding job of an edge. -/
def precedingStatus (st : SysState) (sc : StartConditionRec) : String :=
  match getJob st sc.preceding_job_id with
  | some pj => Job.get_status st pj
  | none => ""

/-- The jobs of the one modelled pipeline (`self.jobs`). -/
def pipelineJobs (st : SysState) : List JobRec :=
  st.jobs.filter (fun j => j.pipeline_id == st.pipeline.id)

/-- The sink jobs of `Pipeline._finish` (lines 182-186): jobs of this
pipeline that are the preceding job of no edge (outer join on
`StartCondition.preceding_job_id` filtered to null). -/
def sinkJobs (st : SysState) : List JobRec :=
  (pipelineJobs st).filter
    (fun j => !(st.conditions.any (fun sc => sc.preceding_job_id == j.id)))

/-- `Pipeline._finish` (lines 181-193): the pipeline fails iff some sink
job of the pipeline has effective status `failed`; persist the outcome with a timestamp
and notify the mailer once. -/
def Pipeline._finish (st : SysState) : SysState :=
  let failedSink := (sinkJobs st).any (fun j => Job.get_status st j == "failed")
  let status := if failedSink then "failed" else "succeeded"
  { st with
      pipeline := { st.pipeline with status := status, status_changed_at := some st.now },
      mailerNotifications := st.mailerNotifications + 1 }

/-- `Pipeline.job_finished` (lines 174-179): if every job of the pipeline
has effective status in `succeeded`/`failed`/`idle`, aggregate via
`_finish`. -/
def Pipeline.job_finished (st : SysState) : SysState × Bool :=
  if (pipelineJobs st).all
      (fun j => ["succeeded", "failed", "idle"].contains (Job.get_status st j)) then
    (Pipeline._finish st, true)
  else (st, false)

/-! ### Dependent propagation and `Job.start` (models.py lines 381-394,
436-440)

`Job.start` recurses through `_start_dependent_jobs` into the starts of its
dependents.  The Python recursion is unbounded (terminating along the DAG);
the model makes it total with an explicit fuel that decreases by one per
nested `start`.  The loop bodies are factored over the recursive callee so
that the recursion is structural in the fuel and concrete runs reduce in
the kernel. -/

/-- Sequentially `job.start()` each job of a list, threading the state and
discarding the returned booleans (the loop bodies of lines 150-151 and
437-439). -/
def startManyGo (startRec : SysState → Nat → SysState × Bool) :
    SysState → List Nat → SysState
  | st, [] => st
  | st, d :: rest => startManyGo startRec (startRec st d).1 rest

/-- `Job._start_dependent_jobs` (lines 436-440): start every dependent
(each edge out of this job contributes its target, in edge order), then
`self.pipeline.job_finished()`. -/
def startDepsGo (startRec : SysState → Nat → SysState × Bool)
    (st : SysState) (jid : Nat) : SysState :=
  let deps := (st.conditions.filter (fun sc => sc.preceding_job_id == jid)).map
    (fun sc => sc.job_id)
  (Pipeline.job_finished (startManyGo startRec st deps)).1

/-- The start-condition loop of `Job.start` (lines 384-392): scan the
inbound edges in order; on a fulfilled edge whose predecessor is not yet
terminal return false unchanged; on an unfulfilled edge mark the job
failed, start the dependents and return false; if the loop completes, call
`run`. -/
def startLoopGo (startRec : SysState → Nat → SysState × Bool)
    (st : SysState) (jid : Nat) : List StartConditionRec → SysState × Bool
  | [] => (Job.run st jid, true)
  | sc :: rest =>
    if Job._start_condition_is_fulfuilled st sc then
      if ["succeeded", "failed"].contains (precedingStatus st sc) then
        startLoopGo startRec st jid rest
      else (st, false)
    else
      (startDepsGo startRec (Job.set_failed_status st jid) jid, false)

/-- `Job.start` (lines 381-394) with fuel for the recursion through
dependent jobs; exhausted fuel returns false unchanged (never reached in
the concrete runs below, and harmless for the invariants). -/
def Job.start : Nat → SysState → Nat → SysState × Bool
  | 0, st, _ => (st, false)
  | fuel + 1, st, jid =>
    match getJob st jid with
    | none => (st, false)
    | some j =>
      if Job.get_status st j ≠ "waiting" then (st, false)
      else startLoopGo (Job.start fuel) st jid
        (st.conditions.filter (fun sc => sc.job_id == j.id))

/-- `Job._start_dependent_jobs` at a given recursion fuel. -/
def Job._start_dependent_jobs (fuel : Nat) (st : SysState) (jid : Nat) : SysState :=
  startDepsGo (Job.start fuel) st jid

/-- `Job.worker_succeeded(task_name)` (lines 455-467): drop the task name,
decrement the enqueued counter of the job seeded with the persisted
`enqueued_workers_count`, and only when the counter reads zero transition
the job (succeeded unless the cached status is already failed) and start
the dependents; otherwise just persist. -/
def Job.worker_succeeded (fuel : Nat) (st : SysState) (jid : Nat)
    (task_name : String) : SysState :=
  match getJob st jid with
  | none => st
  | some j =>
    let st1 := _delete_task_name_cache st j.pipeline_id task_name
    let st2 := _decrease_value_cache st1 j.pipeline_id
      (jobKeyPart j.id ++ "enqueued_tasks") (some j.enqueued_workers_count)
    if cacheGet st2 (enqueuedTasksKey j.pipeline_id j.id) == some (CacheVal.int 0) then
      let st3 :=
        if Job.get_status st2 j ≠ "failed" then Job.set_succeeded_status st2 jid
        else Job.set_failed_status st2 jid
      Job._start_dependent_jobs fuel st3 jid
    else st2

/-- `Job.worker_failed(task_name)` (lines 469-477): drop the task name,
decrement the enqueued counter (no seed), and call `set_failed_status`
unconditionally; dependents start only when the counter reads zero. -/
def Job.worker_failed (fuel : Nat) (st : SysState) (jid : Nat)
    (task_name : String) : SysState :=
  match getJob st jid with
  | none => st
  | some j =>
    let st1 := _delete_task_name_cache st j.pipeline_id task_name
    let st2 := _decrease_value_cache st1 j.pipeline_id
      (jobKeyPart j.id ++ "enqueued_tasks") none
    let st3 := Job.set_failed_status st2 jid
    if cacheGet st3 (enqueuedTasksKey j.pipeline_id j.id) == some (CacheVal.int 0) then
      Job._start_dependent_jobs fuel st3 jid
    else st3

/-! ### Pipeline state machine (models.py lines 129-193) -/

/-- `Pipeline.get_ready` (lines 129-135).  Modelled from the spec for the
missing `core.cache.set_multi_cache`: spec sections 4.5 and 6 place the
reset counters at the pipeline-scoped keys `<pipeline_id>_failed_jobs`,
`<pipeline_id>_remaining_jobs` and `<pipeline_id>_list_of_tasks_enqueued`,
so the multi-set is modelled as writing those keys. -/
def Pipeline.get_ready (st : SysState) : SysState :=
  let st1 := cacheSet st (failedJobsKey st.pipeline.id) (CacheVal.int 0)
  let st2 := cacheSet st1 (remainingJobsKey st.pipeline.id)
    (CacheVal.int ((pipelineJobs st).length : Int))
  cacheSet st2 (listKey st.pipeline.id) (CacheVal.list [])

/-- The `job.get_ready()` loop of `Pipeline.start` (lines 147-149): any
failure aborts with false. -/
def pipelineGetReadyLoop (st : SysState) : List Nat → SysState × Bool
  | [] => (st, true)
  | jid :: rest =>
    match Job.get_ready st jid with
    | (st', true) => pipelineGetReadyLoop st' rest
    | (st', false) => (st', false)

/-- `Pipeline.start` (lines 137-153): guard on the persisted status, reset
the cache via `get_ready`, then validate (at least one job, every job
startable), then `get_ready` and `start` every job and go `running`. -/
def Pipeline.start (fuel : Nat) (st : SysState) : SysState × Bool :=
  if ["idle", "finished", "failed", "succeeded"].contains st.pipeline.status then
    let st1 := Pipeline.get_ready st
    let jids := (pipelineJobs st1).map (fun j => j.id)
    if jids.length < 1 then (st1, false)
    else if !((pipelineJobs st1).all
        (fun j => ["idle", "succeeded", "failed"].contains (Job.get_status st1 j))) then
      (st1, false)
    else
      match pipelineGetReadyLoop st1 jids with
      | (st2, false) => (st2, false)
      | (st2, true) =>
        let st3 := startManyGo (Job.start fuel) st2 jids
        ({ st3 with pipeline :=
            { st3.pipeline with status := "running", status_changed_at := some st3.now } },
         true)
  else (st, false)

/-- The `job.stop()` sweep of `Pipeline.stop` (lines 158-159). -/
def jobStopLoop (st : SysState) : List Nat → SysState
  | [] => st
  | jid :: rest => jobStopLoop (Job.stop st jid).1 rest

/-- `Pipeline.stop` (lines 155-165): only from `running`; stop every job,
then either finish (all terminal) or go `stopping`. -/
def Pipeline.stop (st : SysState) : SysState × Bool :=
  if st.pipeline.status ≠ "running" then (st, false)
  else
    let st1 := jobStopLoop st ((pipelineJobs st).map (fun j => j.id))
    if (pipelineJobs st1).all
        (fun j => ["succeeded", "failed"].contains (Job.get_status st1 j)) then
      (Pipeline._finish st1, true)
    else
      ({ st1 with pipeline :=
          { st1.pipeline with status := "stopping", status_changed_at := some st1.now } },
       true)

/-! ### Operation sequences (for the reachable-snapshot claims) -/

/-- An externally triggered operation on the system: a pipeline start or
stop, or a worker callback (which carries the recursion fuel for dependent
propagation). -/
inductive Op where
  | pipelineStart (fuel : Nat)
  | pipelineStop
  | workerSucceeded (fuel : Nat) (jid : Nat) (task_name : String)
  | workerFailed (fuel : Nat) (jid : Nat) (task_name : String)
  deriving DecidableEq, Repr

/-- Apply one operation. -/
def applyOp (st : SysState) : Op → SysState
  | Op.pipelineStart fuel => (Pipeline.start fuel st).1
  | Op.pipelineStop => (Pipeline.stop st).1
  | Op.workerSucceeded fuel jid t => Job.worker_succeeded fuel st jid t
  | Op.workerFailed fuel jid t => Job.worker_failed fuel st jid t

/-- Run a sequence of operations. -/
def runOps (st : SysState) (ops : List Op) : SysState :=
  ops.foldl applyOp st

/-! ### Claim-side definitions

These definitions transcribe claim statements (not the source), for
comparison against the source-derived definitions above. -/

/-- Claim C7's literal increment description: `current+1` **whenever a value
is present**, else `db_seed+1` **whenever db_seed is set**, else 1. -/
def increase_value_claimed (cached db_seed : Option Int) : Int :=
  match cached with
  | some c => c + 1
  | none =>
    match db_seed with
    | some d => d + 1
    | none => 1

/-- Claim C7's literal decrement description: `current-1` whenever a value
is present, else `db_seed-1` whenever db_seed is set, else 0. -/
def decrease_value_claimed (cached db_seed : Option Int) : Int :=
  match cached with
  | some c => c - 1
  | none =>
    match db_seed with
    | some d => d - 1
    | none => 0

/-- Amended C7 increment description: Python truthiness decides both
branches, so a cached 0 and a zero seed both fall through. -/
def increase_value_described (cached db_seed : Option Int) : Int :=
  match cached with
  | some c =>
    if c ≠ 0 then c + 1
    else match db_seed with
      | some d => if d ≠ 0 then d + 1 else 1
      | none => 1
  | none =>
    match db_seed with
    | some d => if d ≠ 0 then d + 1 else 1
    | none => 1

/-- Amended C7 decrement description, truthiness included. -/
def decrease_value_described (cached db_seed : Option Int) : Int :=
  match cached with
  | some c =>
    if c ≠ 0 then c - 1
    else match db_seed with
      | some d => if d ≠ 0 then d - 1 else 0
      | none => 0
  | none =>
    match db_seed with
    | some d => if d ≠ 0 then d - 1 else 0
    | none => 0

/-- The decision `Job.start` reaches on a waiting job, per the amended
claim C2: scanning the inbound edges in list order, the first edge that is
fulfilled but has a non-terminal predecessor yields `notReady`; the first
unfulfilled edge (before any such) yields `violated`; otherwise `ready`. -/
inductive StartVerdict where
  | notReady
  | violated
  | ready
  deriving DecidableEq, Repr

/-- Scan of the inbound edges computing the `StartVerdict`. -/
def startVerdict (st : SysState) : List StartConditionRec → StartVerdict
  | [] => StartVerdict.ready
  | sc :: rest =>
    if Job._start_condition_is_fulfuilled st sc then
      if ["succeeded", "failed"].contains (precedingStatus st sc) then
        startVerdict st rest
      else StartVerdict.notReady
    else StartVerdict.violated

/-! ### Structural invariants for the reachable-snapshot claim (C6) -/

/-- Every job row belongs to the one modelled pipeline (the foreign key of the real
schema). -/
def WFJobs (st : SysState) : Prop :=
  ∀ j ∈ st.jobs, j.pipeline_id = st.pipeline.id

/-- Boolean form of the counter bounds of the amended claim C6. -/
def goodCountersB (st : SysState) : Bool :=
  (match cacheGetInt st (failedJobsKey st.pipeline.id) with
   | some v => decide (0 ≤ v)
   | none => true) &&
  (match cacheGetInt st (remainingJobsKey st.pipeline.id) with
   | some v => decide (0 ≤ v ∧ v ≤ ((pipelineJobs st).length : Int))
   | none => true)

/-- The counter bounds of the amended claim C6: a cached `failed_jobs`
value is non-negative, and a cached `remaining_jobs` value lies between 0
and the job count of the pipeline. -/
def goodCounters (st : SysState) : Prop :=
  goodCountersB st = true

instance (st : SysState) : Decidable (WFJobs st) := by
  unfold WFJobs; infer_instance

/-! ### Concrete example states for the claim theorems -/

/-- C5 scenario: global `x = "2"`, pipeline param `y = "3"`, job param
`z` of type number with raw value containing the two inliners. -/
def c5Env : ParamEnv :=
  { params := [
      { id := 1, name := "x", type := "string", pipeline_id := none, job_id := none,
        value := "2" },
      { id := 2, name := "y", type := "string", pipeline_id := some 10, job_id := none,
        value := "3" },
      { id := 3, name := "z", type := "number", pipeline_id := none, job_id := some 20,
        value := "\x7b% x %\x7d + \x7b% y %\x7d + 5" } ],
    jobPipelines := [(20, 10)] }

/-- The job-scoped param `z` of the C5 scenario. -/
def c5z : ParamRec :=
  { id := 3, name := "z", type := "number", pipeline_id := none, job_id := some 20,
    value := "\x7b% x %\x7d + \x7b% y %\x7d + 5" }

/-- A one-job pipeline with two outstanding worker tasks for job 2 (the
fanout of spec scenario 6): cached enqueued counter 2, both task names in
the list, `enqueued_workers_count = 2`, everything `running`. -/
def twoTaskState : SysState :=
  { pipeline := { id := 1, name := "P", status := "running", status_changed_at := none },
    jobs := [{ id := 2, name := "A", status := "running", status_changed_at := none,
               worker_class := "W", pipeline_id := 1, enqueued_workers_count := 2 }],
    conditions := [],
    cache := [(statusKey 1 2, CacheVal.str "running"),
              (enqueuedTasksKey 1 2, CacheVal.int 2),
              (listKey 1, CacheVal.list ["t1", "t2"]),
              (remainingJobsKey 1, CacheVal.int 1),
              (failedJobsKey 1, CacheVal.int 0)],
    taskQueue := [], mailerNotifications := 0, uuids := [], now := 7 }

/-- Same shape as `twoTaskState` but with task names `s1`/`s2` (used by the
C1 counterexample so that no two claims share a state constant). -/
def twoTaskStateF : SysState :=
  { pipeline := { id := 1, name := "P", status := "running", status_changed_at := none },
    jobs := [{ id := 2, name := "A", status := "running", status_changed_at := none,
               worker_class := "W", pipeline_id := 1, enqueued_workers_count := 2 }],
    conditions := [],
    cache := [(statusKey 1 2, CacheVal.str "running"),
              (enqueuedTasksKey 1 2, CacheVal.int 2),
              (listKey 1, CacheVal.list ["s1", "s2"]),
              (remainingJobsKey 1, CacheVal.int 1),
              (failedJobsKey 1, CacheVal.int 0)],
    taskQueue := [], mailerNotifications := 0, uuids := [], now := 7 }

/-- C2 counterexample state: job 4 is waiting with two inbound `success`
edges, the first from job 2 (still running: fulfilled, non-terminal), the
second from job 3 (failed: not fulfilled). -/
def mixedEdgesState : SysState :=
  { pipeline := { id := 1, name := "P", status := "running", status_changed_at := none },
    jobs := [{ id := 2, name := "A", status := "running", status_changed_at := none,
               worker_class := "W", pipeline_id := 1, enqueued_workers_count := 0 },
             { id := 3, name := "B", status := "failed", status_changed_at := none,
               worker_class := "W", pipeline_id := 1, enqueued_workers_count := 0 },
             { id := 4, name := "J", status := "waiting", status_changed_at := none,
               worker_class := "W", pipeline_id := 1, enqueued_workers_count := 0 }],
    conditions := [{ job_id := 4, preceding_job_id := 2, condition := "success" },
                   { job_id := 4, preceding_job_id := 3, condition := "success" }],
    cache := [], taskQueue := [], mailerNotifications := 0, uuids := [], now := 0 }

/-- C6 counterexample start state: a fresh one-job pipeline. -/
def freshOneJobState : SysState :=
  { pipeline := { id := 1, name := "P", status := "idle", status_changed_at := none },
    jobs := [{ id := 2, name := "A", status := "idle", status_changed_at := none,
               worker_class := "W", pipeline_id := 1, enqueued_workers_count := 0 }],
    conditions := [], cache := [], taskQueue := [], mailerNotifications := 0,
    uuids := ["u1"], now := 3 }

/-- C6 counterexample operation sequence: start the pipeline, then deliver
two failure callbacks for job 2. -/
def failTwiceOps : List Op :=
  [Op.pipelineStart 10, Op.workerFailed 10 2 "x", Op.workerFailed 10 2 "x"]

/-- C6 witness start state: a fresh two-job pipeline (distinct from the
counterexample state). -/
def freshTwoJobState : SysState :=
  { pipeline := { id := 1, name := "Q", status := "idle", status_changed_at := none },
    jobs := [{ id := 2, name := "A", status := "idle", status_changed_at := none,
               worker_class := "W", pipeline_id := 1, enqueued_workers_count := 0 },
             { id := 3, name := "B", status := "idle", status_changed_at := none,
               worker_class := "W", pipeline_id := 1, enqueued_workers_count := 0 }],
    conditions := [], cache := [], taskQueue := [], mailerNotifications := 0,
    uuids := ["u1", "u2"], now := 4 }

/-- C7 counterexample state: the pipeline-scoped failed-jobs counter is
cached with value 0 (present, falsy). -/
def zeroCounterState : SysState :=
  { pipeline := { id := 1, name := "P", status := "idle", status_changed_at := none },
    jobs := [], conditions := [],
    cache := [(failedJobsKey 1, CacheVal.int 0)],
    taskQueue := [], mailerNotifications := 0, uuids := [], now := 0 }

/-- C8 counterexample state: job 2's persisted status is `idle` while its
effective (cache) status is `waiting`. -/
def staleDbState : SysState :=
  { pipeline := { id := 1, name := "P", status := "running", status_changed_at := none },
    jobs := [{ id := 2, name := "A", status := "idle", status_changed_at := none,
               worker_class := "W", pipeline_id := 1, enqueued_workers_count := 0 }],
    conditions := [], cache := [(statusKey 1 2, CacheVal.str "waiting")],
    taskQueue := [], mailerNotifications := 0, uuids := [], now := 0 }

/-- C8 witness state: job 5's persisted status is `waiting`. -/
def waitingDbState : SysState :=
  { pipeline := { id := 1, name := "P", status := "running", status_changed_at := none },
    jobs := [{ id := 5, name := "A", status := "waiting", status_changed_at := none,
               worker_class := "W", pipeline_id := 1, enqueued_workers_count := 0 }],
    conditions := [], cache := [], taskQueue := [], mailerNotifications := 0,
    uuids := [], now := 9 }

/-- C9 counterexample/witness state: job 2 stores worker class `A`; enqueue
is called with worker class `B`. -/
def classMismatchState : SysState :=
  { pipeline := { id := 1, name := "Pipe", status := "running", status_changed_at := none },
    jobs := [{ id := 2, name := "Jay", status := "running", status_changed_at := none,
               worker_class := "A", pipeline_id := 1, enqueued_workers_count := 1 }],
    conditions := [], cache := [(statusKey 1 2, CacheVal.str "running")],
    taskQueue := [], mailerNotifications := 0, uuids := ["u1"], now := 0 }

/-- C10 witness state: an idle pipeline with no jobs whose cached
failed-jobs counter still holds a stale value 7. -/
def staleCounterState : SysState :=
  { pipeline := { id := 4, name := "P", status := "idle", status_changed_at := none },
    jobs := [], conditions := [],
    cache := [(failedJobsKey 4, CacheVal.int 7)],
    taskQueue := [], mailerNotifications := 0, uuids := [], now := 0 }

/-- C1 witness state: one job with three outstanding tasks. -/
def threeTaskState : SysState :=
  { pipeline := { id := 1, name := "P", status := "running", status_changed_at := none },
    jobs := [{ id := 6, name := "C", status := "running", status_changed_at := none,
               worker_class := "W", pipeline_id := 1, enqueued_workers_count := 3 }],
    conditions := [],
    cache := [(statusKey 1 6, CacheVal.str "running"),
              (enqueuedTasksKey 1 6, CacheVal.int 3),
              (listKey 1, CacheVal.list ["r1", "r2", "r3"]),
              (remainingJobsKey 1, CacheVal.int 1),
              (failedJobsKey 1, CacheVal.int 0)],
    taskQueue := [], mailerNotifications := 0, uuids := [], now := 2 }

/-- C2 witness state: job 4 waiting behind one satisfied-and-terminal
`success` edge from the succeeded job 2; starting job 4 runs it. -/
def readyEdgeState : SysState :=
  { pipeline := { id := 1, name := "R", status := "running", status_changed_at := none },
    jobs := [{ id := 2, name := "A", status := "succeeded", status_changed_at := none,
               worker_class := "W", pipeline_id := 1, enqueued_workers_count := 0 },
             { id := 4, name := "J", status := "waiting", status_changed_at := none,
               worker_class := "W", pipeline_id := 1, enqueued_workers_count := 0 }],
    conditions := [{ job_id := 4, preceding_job_id := 2, condition := "success" }],
    cache := [], taskQueue := [], mailerNotifications := 0, uuids := ["w1"], now := 0 }

/-! ## Lemma toolkit -/

theorem string_data_append (p q : String) : (p ++ q).data = p.data ++ q.data := rfl

/-- Projections of `cacheSet` away from the cache. -/
@[simp] theorem cacheSet_jobs (st : SysState) (k : String) (v : CacheVal) :
    (cacheSet st k v).jobs = st.jobs := rfl

@[simp] theorem cacheSet_pipeline (st : SysState) (k : String) (v : CacheVal) :
    (cacheSet st k v).pipeline = st.pipeline := rfl

@[simp] theorem cacheSet_conditions (st : SysState) (k : String) (v : CacheVal) :
    (cacheSet st k v).conditions = st.conditions := rfl

@[simp] theorem cacheSet_now (st : SysState) (k : String) (v : CacheVal) :
    (cacheSet st k v).now = st.now := rfl

@[simp] theorem cacheSet_taskQueue (st : SysState) (k : String) (v : CacheVal) :
    (cacheSet st k v).taskQueue = st.taskQueue := rfl

@[simp] theorem cacheSet_mailer (st : SysState) (k : String) (v : CacheVal) :
    (cacheSet st k v).mailerNotifications = st.mailerNotifications := rfl

@[simp] theorem cacheSet_uuids (st : SysState) (k : String) (v : CacheVal) :
    (cacheSet st k v).uuids = st.uuids := rfl

@[simp] theorem setJob_cache (st : SysState) (j : JobRec) :
    (setJob st j).cache = st.cache := rfl

@[simp] theorem setJob_pipeline (st : SysState) (j : JobRec) :
    (setJob st j).pipeline = st.pipeline := rfl

@[simp] theorem setJob_conditions (st : SysState) (j : JobRec) :
    (setJob st j).conditions = st.conditions := rfl

@[simp] theorem setJob_now (st : SysState) (j : JobRec) :
    (setJob st j).now = st.now := rfl

theorem find?_filter_ne (l : List (String × CacheVal)) (k k' : String) (h : k' ≠ k) :
    (l.filter (fun e => e.1 != k)).find? (fun e => e.1 == k')
      = l.find? (fun e => e.1 == k') := by
  induction l with
  | nil => rfl
  | cons e rest ih =>
    by_cases he : e.1 = k'
    · have hpe : (e.1 == k') = true := by simp [he]
      have hk : (e.1 != k) = true := by simp [bne_iff_ne, he, h]
      simp [List.filter_cons, hk, List.find?, hpe]
    · have hpe : (e.1 == k') = false := by simp [he]
      by_cases hek : e.1 = k
      · have hk : (e.1 != k) = false := by simp [bne, hek]
        simp [List.filter_cons, hk, List.find?, hpe, ih]
      · have hk : (e.1 != k) = true := by simp [bne_iff_ne, hek]
        simp [List.filter_cons, hk, List.find?, hpe, ih]

@[simp] theorem cacheGet_cacheSet_self (st : SysState) (k : String) (v : CacheVal) :
    cacheGet (cacheSet st k v) k = some v := by
  simp [cacheGet, cacheSet, List.find?_cons]

theorem cacheGet_cacheSet_ne (st : SysState) (k k' : String) (v : CacheVal)
    (h : k' ≠ k) : cacheGet (cacheSet st k v) k' = cacheGet st k' := by
  have hk : (k == k') = false := by
    simp [Ne.symm h]
  simp [cacheGet, cacheSet, List.find?_cons, hk, find?_filter_ne st.cache k k' h]

theorem cacheGetInt_cacheSet_ne (st : SysState) (k k' : String) (v : CacheVal)
    (h : k' ≠ k) : cacheGetInt (cacheSet st k v) k' = cacheGetInt st k' := by
  simp [cacheGetInt, cacheGet_cacheSet_ne st k k' v h]

@[simp] theorem cacheGetInt_cacheSet_self (st : SysState) (k : String) (i : Int) :
    cacheGetInt (cacheSet st k (CacheVal.int i)) k = some i := by
  simp [cacheGetInt]

/-! ### Key distinctness

Every cache key the core writes ends in one of five fixed literals; reading
the final six characters separates them, uniformly in the pipeline and job
identifiers embedded in the key. -/

/-- The last six characters of a key, reversed. -/
def keyTag (s : String) : List Char := s.data.reverse.take 6

theorem take6_rev_append (a b : List Char) (h : 6 ≤ b.length) :
    (a ++ b).reverse.take 6 = b.reverse.take 6 := by
  rw [List.reverse_append, List.take_append_of_le_length (by simpa using h)]

theorem keyTag_statusKey (pid jid : Nat) : keyTag (statusKey pid jid) = "sutats".data := by
  unfold keyTag statusKey
  rw [string_data_append, take6_rev_append _ _ (by decide)]
  decide

theorem keyTag_enqueuedTasksKey (pid jid : Nat) :
    keyTag (enqueuedTasksKey pid jid) = "sksat_".data := by
  unfold keyTag enqueuedTasksKey
  rw [string_data_append, string_data_append]
  rw [take6_rev_append _ _ (le_trans (by decide : (6:Nat) ≤ "enqueued_tasks".data.length)
    (by simp))]
  rw [take6_rev_append _ _ (by decide)]
  decide

theorem keyTag_listKey (pid : Nat) : keyTag (listKey pid) = "deueuq".data := by
  unfold keyTag listKey
  rw [string_data_append, take6_rev_append _ _ (by decide)]
  decide

theorem keyTag_failedJobsKey (pid : Nat) : keyTag (failedJobsKey pid) = "sboj_d".data := by
  unfold keyTag failedJobsKey
  rw [string_data_append, take6_rev_append _ _ (by decide)]
  decide

theorem keyTag_remainingJobsKey (pid : Nat) :
    keyTag (remainingJobsKey pid) = "sboj_g".data := by
  unfold keyTag remainingJobsKey
  rw [string_data_append, take6_rev_append _ _ (by decide)]
  decide

theorem ne_of_keyTag_ne {s t : String} (h : keyTag s ≠ keyTag t) : s ≠ t :=
  fun he => h (he ▸ rfl)

theorem statusKey_ne_failedJobsKey (p q r : Nat) : statusKey p q ≠ failedJobsKey r :=
  ne_of_keyTag_ne (by rw [keyTag_statusKey, keyTag_failedJobsKey]; decide)

theorem statusKey_ne_remainingJobsKey (p q r : Nat) : statusKey p q ≠ remainingJobsKey r :=
  ne_of_keyTag_ne (by rw [keyTag_statusKey, keyTag_remainingJobsKey]; decide)

theorem statusKey_ne_listKey (p q r : Nat) : statusKey p q ≠ listKey r :=
  ne_of_keyTag_ne (by rw [keyTag_statusKey, keyTag_listKey]; decide)

theorem statusKey_ne_enqueuedTasksKey (p q r s : Nat) :
    statusKey p q ≠ enqueuedTasksKey r s :=
  ne_of_keyTag_ne (by rw [keyTag_statusKey, keyTag_enqueuedTasksKey]; decide)

theorem enqueuedTasksKey_ne_failedJobsKey (p q r : Nat) :
    enqueuedTasksKey p q ≠ failedJobsKey r :=
  ne_of_keyTag_ne (by rw [keyTag_enqueuedTasksKey, keyTag_failedJobsKey]; decide)

theorem enqueuedTasksKey_ne_remainingJobsKey (p q r : Nat) :
    enqueuedTasksKey p q ≠ remainingJobsKey r :=
  ne_of_keyTag_ne (by rw [keyTag_enqueuedTasksKey, keyTag_remainingJobsKey]; decide)

theorem enqueuedTasksKey_ne_listKey (p q r : Nat) : enqueuedTasksKey p q ≠ listKey r :=
  ne_of_keyTag_ne (by rw [keyTag_enqueuedTasksKey, keyTag_listKey]; decide)

theorem listKey_ne_failedJobsKey (p r : Nat) : listKey p ≠ failedJobsKey r :=
  ne_of_keyTag_ne (by rw [keyTag_listKey, keyTag_failedJobsKey]; decide)

theorem listKey_ne_remainingJobsKey (p r : Nat) : listKey p ≠ remainingJobsKey r :=
  ne_of_keyTag_ne (by rw [keyTag_listKey, keyTag_remainingJobsKey]; decide)

theorem failedJobsKey_ne_remainingJobsKey (p r : Nat) :
    failedJobsKey p ≠ remainingJobsKey r :=
  ne_of_keyTag_ne (by rw [keyTag_failedJobsKey, keyTag_remainingJobsKey]; decide)

/-! ## Claim theorems -/

theorem increase_handler_eq_described (db o : Option Int) :
    increase_handler db o = increase_value_described o db := by
  cases o <;> cases db <;> simp [increase_handler, increase_value_described]

theorem decrease_handler_eq_described (db o : Option Int) :
    decrease_handler db o = decrease_value_described o db := by
  cases o <;> cases db <;> simp [decrease_handler, decrease_value_described]

/-- C5 (counterexample): with global `x = "2"`, pipeline param `y = "3"` and
job param `z` of type number with raw value `\x7b% x %\x7d + \x7b% y %\x7d + 5`,
evaluating `z.val` yields the integer 0, not the claimed 10. -/
theorem C5_param_expansion_counterexample :
    Param.val c5Env c5z = some (PVal.num (PyNum.int 0)) ∧
    some (PVal.num (PyNum.int 0)) ≠ some (PVal.num (PyNum.int 10)) := by
  constructor
  · decide
  · decide

/-- C5 (amended): inliner expansion substitutes only the `\x7b% ... %\x7d`
fragments, producing the literal string `2 + 3 + 5`; the number coercion
fails to parse it and silently yields 0, so `z.val = 0`. -/
theorem C5_param_expansion_amended :
    _expand_vars [("True", PVal.b true), ("False", PVal.b false),
      ("x", PVal.s "2"), ("y", PVal.s "3")] c5z.value = some "2 + 3 + 5" ∧
    _parse_num "2 + 3 + 5" = PyNum.int 0 ∧
    Param.val c5Env c5z = some (PVal.num (PyNum.int 0)) := by
  refine ⟨by decide, by decide, by decide⟩

/-- C7 (counterexample): with the key cached at value 0 (present) and
`db_seed = 5`, the increment in the code sets 6 (Python truthiness sends the
cached 0 to the seed branch) while the reading in the claim (`current+1` when a
value is present) demands 1. -/
theorem C7_truthiness_counterexample :
    cacheGetInt (_increase_value_cache zeroCounterState 1 "failed_jobs" (some 5))
      (failedJobsKey 1) = some 6 ∧
    increase_value_claimed (some 0) (some 5) = 1 ∧
    (6 : Int) ≠ 1 := by
  refine ⟨by decide, by decide, by decide⟩

/-- C7 (amended): for every key and optional seed, increment writes
`current+1` when a nonzero value is cached, else `db_seed+1` when the seed
is set and nonzero, else 1; decrement writes `current-1` when a nonzero
value is cached, else `db_seed-1` when the seed is set and nonzero, else 0;
a cached 0 (and a zero seed) falls through to the next branch. -/
theorem C7_counter_ops_amended (st : SysState) (pid : Nat) (key : String)
    (db : Option Int) :
    cacheGetInt (_increase_value_cache st pid key db) (pipelineKeyPart pid ++ key)
      = some (increase_value_described
          (cacheGetInt st (pipelineKeyPart pid ++ key)) db) ∧
    cacheGetInt (_decrease_value_cache st pid key db) (pipelineKeyPart pid ++ key)
      = some (decrease_value_described
          (cacheGetInt st (pipelineKeyPart pid ++ key)) db) := by
  constructor
  · unfold _increase_value_cache
    rw [cacheGetInt_cacheSet_self, increase_handler_eq_described]
  · unfold _decrease_value_cache
    rw [cacheGetInt_cacheSet_self, decrease_handler_eq_described]

/-- C3 (confirmed): at `_finish` time the terminal status of the pipeline is
`failed` iff some sink job has effective status `failed`, and `succeeded`
otherwise; the outcome is persisted with a timestamp and the mailer is
notified exactly once. -/
theorem C3_finish_aggregate (st : SysState) :
    ((Pipeline._finish st).pipeline.status = "failed" ↔
      ∃ j ∈ sinkJobs st, Job.get_status st j = "failed") ∧
    ((Pipeline._finish st).pipeline.status = "failed" ∨
      (Pipeline._finish st).pipeline.status = "succeeded") ∧
    (Pipeline._finish st).pipeline.status_changed_at = some st.now ∧
    (Pipeline._finish st).mailerNotifications = st.mailerNotifications + 1 := by
  have hmain : (Pipeline._finish st).pipeline.status
      = (if (sinkJobs st).any (fun j => Job.get_status st j == "failed")
         then "failed" else "succeeded") := rfl
  cases hb : (sinkJobs st).any (fun j => Job.get_status st j == "failed") with
  | false =>
    rw [hb, if_neg (by decide)] at hmain
    refine ⟨?_, Or.inr hmain, rfl, rfl⟩
    rw [hmain]
    constructor
    · intro hc; exact absurd hc (by decide)
    · rintro ⟨j, hj, hf⟩
      have := List.any_eq_false.mp (by exact_mod_cast hb) j hj
      simp [hf] at this
  | true =>
    rw [hb, if_pos rfl] at hmain
    refine ⟨?_, Or.inl hmain, rfl, rfl⟩
    rw [hmain]
    refine iff_of_true rfl ?_
    obtain ⟨j, hj, hf⟩ := List.any_eq_true.mp hb
    exact ⟨j, hj, by simpa using hf⟩

/-- C8 (counterexample): job 2's effective status is `waiting` (the cache
says so), yet `stop()` — which consults only the persisted column, here
`idle` — is a no-op returning false instead of failing the job. -/
theorem C8_stop_effective_status_counterexample :
    (getJob staleDbState 2).map (Job.get_status staleDbState) = some "waiting" ∧
    Job.stop staleDbState 2 = (staleDbState, false) := by
  refine ⟨by decide, by decide⟩

/-- C8 (amended): `stop()` transitions the job to `failed` when the
**persisted** status column is `waiting`, to `stopping` when it is
`running`, and is a no-op returning false otherwise; the cache is neither
consulted nor written. -/
theorem C8_stop_amended (st : SysState) (jid : Nat) (j : JobRec)
    (hj : getJob st jid = some j) :
    (j.status = "waiting" →
      Job.stop st jid =
        (setJob st { j with status := "failed", status_changed_at := some st.now },
         true)) ∧
    (j.status ≠ "waiting" → j.status = "running" →
      Job.stop st jid =
        (setJob st { j with status := "stopping", status_changed_at := some st.now },
         true)) ∧
    (j.status ≠ "waiting" → j.status ≠ "running" → Job.stop st jid = (st, false)) ∧
    (Job.stop st jid).1.cache = st.cache := by
  unfold Job.stop
  rw [hj]
  dsimp only
  refine ⟨?_, ?_, ?_, ?_⟩
  · intro hw; rw [if_pos hw]
  · intro hnw hr; rw [if_neg hnw, if_pos hr]
  · intro hnw hnr; rw [if_neg hnw, if_neg hnr]
  · by_cases hw : j.status = "waiting"
    · rw [if_pos hw]; exact setJob_cache st _
    · by_cases hr : j.status = "running"
      · rw [if_neg hw, if_pos hr]; exact setJob_cache st _
      · rw [if_neg hw, if_neg hr]

/-- C8 (witness): applying the amended stop behavior to a job whose
persisted status is `waiting`. -/
theorem C8_stop_amended_witness :
    Job.stop waitingDbState 5 =
      (setJob waitingDbState
        { id := 5, name := "A", status := "failed", status_changed_at := some 9,
          worker_class := "W", pipeline_id := 1, enqueued_workers_count := 0 },
       true) :=
  (C8_stop_amended waitingDbState 5
    { id := 5, name := "A", status := "waiting", status_changed_at := none,
      worker_class := "W", pipeline_id := 1, enqueued_workers_count := 0 }
    (by decide)).1 (by decide)

/-- C2 (counterexample): job 4 is `waiting` and its second inbound edge is
not satisfied (a `success` edge from the failed job 3), yet — because the
first edge (from the still-running job 2) is scanned first — `start()`
returns false leaving the state (in particular job 4's status) unchanged,
instead of marking the job failed. -/
theorem C2_start_order_counterexample :
    Job._start_condition_is_fulfuilled mixedEdgesState
      { job_id := 4, preceding_job_id := 3, condition := "success" } = false ∧
    Job.start 5 mixedEdgesState 4 = (mixedEdgesState, false) ∧
    (getJob mixedEdgesState 4).map (fun j => j.status) = some "waiting" := by
  refine ⟨by decide, by decide, by decide⟩

/-- C1 (counterexample): job 2 has two outstanding worker tasks; delivering
`worker_failed` for the first one leaves the pipeline-keyed enqueued count
at 1, yet the handler has already moved the cache status of the job to the
terminal `failed`. -/
theorem C1_worker_failed_counterexample :
    cacheGet (Job.worker_failed 5 twoTaskStateF 2 "s1") (statusKey 1 2)
      = some (CacheVal.str "failed") ∧
    cacheGetInt (Job.worker_failed 5 twoTaskStateF 2 "s1") (enqueuedTasksKey 1 2)
      = some 1 ∧
    ¬ ((1 : Int) = 0) := by
  refine ⟨by decide, by decide, by decide⟩

/-- C4 (code bug): delivering the same `worker_succeeded(job, task_name)`
twice is not idempotent.  With two tasks outstanding, one delivery leaves
the job `running` with `remaining_jobs = 1`; the duplicate decrements the
enqueued counter to 0 again and transitions the job to `succeeded`,
decrementing `remaining_jobs` once more. -/
theorem C4_duplicate_delivery_divergence :
    cacheGet (Job.worker_succeeded 5 twoTaskState 2 "t1") (statusKey 1 2)
      = some (CacheVal.str "running") ∧
    cacheGet (Job.worker_succeeded 5 (Job.worker_succeeded 5 twoTaskState 2 "t1") 2 "t1")
      (statusKey 1 2) = some (CacheVal.str "succeeded") ∧
    cacheGetInt (Job.worker_succeeded 5 twoTaskState 2 "t1") (remainingJobsKey 1)
      = some 1 ∧
    cacheGetInt (Job.worker_succeeded 5 (Job.worker_succeeded 5 twoTaskState 2 "t1") 2 "t1")
      (remainingJobsKey 1) = some 0 ∧
    Job.worker_succeeded 5 (Job.worker_succeeded 5 twoTaskState 2 "t1") 2 "t1"
      ≠ Job.worker_succeeded 5 twoTaskState 2 "t1" := by
  refine ⟨by decide, by decide, by decide, by decide, by decide⟩

/-- C6 (counterexample): starting a fresh one-job pipeline and then
delivering two failure callbacks for its job drives the cached
`failed_jobs` counter to 2, exceeding the job count 1 of the pipeline. -/
theorem C6_failed_jobs_counterexample :
    cacheGetInt (runOps freshOneJobState failTwiceOps) (failedJobsKey 1) = some 2 ∧
    (pipelineJobs (runOps freshOneJobState failTwiceOps)).length = 1 ∧
    ¬ ((2 : Int) ≤ (1 : Int)) := by
  refine ⟨by decide, by decide, by decide⟩

/-- C9 (counterexample): job 2 stores worker class `A`; calling
`enqueue` with worker class `B` mints the task name from the stored class
(`Pipe_Jay_A_u1`), not from the argument as the formula of the claim
(`Pipe_Jay_B_u1`) demands. -/
theorem C9_task_name_counterexample :
    (Job.enqueue classMismatchState 2 "B" "pp" 0).1.taskQueue.map (fun t => t.name)
      = ["Pipe_Jay_A_u1"] ∧
    escapeTaskName ("Pipe" ++ "_" ++ "Jay" ++ "_" ++ "B") ++ "_" ++ "u1"
      = "Pipe_Jay_B_u1" ∧
    ("Pipe_Jay_A_u1" : String) ≠ "Pipe_Jay_B_u1" := by
  refine ⟨by decide, by decide, by decide⟩

theorem startLoopGo_verdict (rec : SysState → Nat → SysState × Bool)
    (st : SysState) (jid : Nat) (scs : List StartConditionRec) :
    (startVerdict st scs = StartVerdict.notReady →
      startLoopGo rec st jid scs = (st, false)) ∧
    (startVerdict st scs = StartVerdict.violated →
      startLoopGo rec st jid scs
        = (startDepsGo rec (Job.set_failed_status st jid) jid, false)) ∧
    (startVerdict st scs = StartVerdict.ready →
      startLoopGo rec st jid scs = (Job.run st jid, true)) := by
  induction scs with
  | nil =>
    refine ⟨?_, ?_, ?_⟩ <;> intro h
    · exact absurd h (by simp [startVerdict])
    · exact absurd h (by simp [startVerdict])
    · rfl
  | cons sc rest ih =>
    by_cases h1 : Job._start_condition_is_fulfuilled st sc
    · by_cases h2 :
        (["succeeded", "failed"].contains (precedingStatus st sc)) = true
      · refine ⟨?_, ?_, ?_⟩ <;> intro h <;>
          [exact (by
            rw [startVerdict, if_pos h1, if_pos h2] at h
            rw [startLoopGo, if_pos h1, if_pos h2]
            exact ih.1 h);
          exact (by
            rw [startVerdict, if_pos h1, if_pos h2] at h
            rw [startLoopGo, if_pos h1, if_pos h2]
            exact ih.2.1 h);
          exact (by
            rw [startVerdict, if_pos h1, if_pos h2] at h
            rw [startLoopGo, if_pos h1, if_pos h2]
            exact ih.2.2 h)]
      · refine ⟨?_, ?_, ?_⟩ <;> intro h
        · rw [startLoopGo, if_pos h1, if_neg h2]
        · rw [startVerdict, if_pos h1, if_neg h2] at h
          exact absurd h (by decide)
        · rw [startVerdict, if_pos h1, if_neg h2] at h
          exact absurd h (by decide)
    · refine ⟨?_, ?_, ?_⟩ <;> intro h
      · rw [startVerdict, if_neg h1] at h
        exact absurd h (by decide)
      · rw [startLoopGo, if_neg h1]
      · rw [startVerdict, if_neg h1] at h
        exact absurd h (by decide)

/-- C2 (amended): for a waiting job, `start()` scans its inbound edges in
list order; the first edge that is satisfied but has a non-terminal
predecessor yields false without running the job or changing any state;
the first unsatisfied edge (before any such) marks the job failed, starts
its dependents and yields false; if every edge is satisfied with a
terminal predecessor, `start()` calls `run`. -/
theorem C2_start_amended (fuel : Nat) (st : SysState) (jid : Nat) (j : JobRec)
    (hj : getJob st jid = some j) (hw : Job.get_status st j = "waiting") :
    (startVerdict st (st.conditions.filter (fun sc => sc.job_id == j.id))
        = StartVerdict.notReady →
      Job.start (fuel + 1) st jid = (st, false)) ∧
    (startVerdict st (st.conditions.filter (fun sc => sc.job_id == j.id))
        = StartVerdict.violated →
      Job.start (fuel + 1) st jid
        = (startDepsGo (Job.start fuel) (Job.set_failed_status st jid) jid, false)) ∧
    (startVerdict st (st.conditions.filter (fun sc => sc.job_id == j.id))
        = StartVerdict.ready →
      Job.start (fuel + 1) st jid = (Job.run st jid, true)) := by
  have hstart : Job.start (fuel + 1) st jid
      = startLoopGo (Job.start fuel) st jid
          (st.conditions.filter (fun sc => sc.job_id == j.id)) := by
    rw [Job.start, hj]
    dsimp only
    rw [if_neg (by simp [hw])]
  rw [hstart]
  exact startLoopGo_verdict (Job.start fuel) st jid
    (st.conditions.filter (fun sc => sc.job_id == j.id))

/-- C2 (witness): in a state where the single inbound edge of waiting job 4
is satisfied by its succeeded predecessor, the verdict is `ready` and
`start()` runs the job. -/
theorem C2_start_amended_witness :
    Job.start 6 readyEdgeState 4 = (Job.run readyEdgeState 4, true) :=
  (C2_start_amended 5 readyEdgeState 4
    { id := 4, name := "J", status := "waiting", status_changed_at := none,
      worker_class := "W", pipeline_id := 1, enqueued_workers_count := 0 }
    (by decide) (by decide)).2.2 (by decide)

theorem getJob_congr (st st' : SysState) (jid : Nat) (h : st'.jobs = st.jobs) :
    getJob st' jid = getJob st jid := by
  unfold getJob; rw [h]

theorem increase_failed_eq (st : SysState) (pid : Nat) (db : Option Int) :
    _increase_value_cache st pid "failed_jobs" db
      = cacheSet st (failedJobsKey pid)
          (CacheVal.int (increase_handler db (cacheGetInt st (failedJobsKey pid)))) := rfl

theorem decrease_remaining_eq (st : SysState) (pid : Nat) (db : Option Int) :
    _decrease_value_cache st pid "remaining_jobs" db
      = cacheSet st (remainingJobsKey pid)
          (CacheVal.int (decrease_handler db (cacheGetInt st (remainingJobsKey pid)))) := rfl

theorem increase_enqueued_eq (st : SysState) (pid jid : Nat) (db : Option Int) :
    _increase_value_cache st pid (jobKeyPart jid ++ "enqueued_tasks") db
      = cacheSet st (enqueuedTasksKey pid jid)
          (CacheVal.int (increase_handler db
            (cacheGetInt st (enqueuedTasksKey pid jid)))) := rfl

theorem decrease_enqueued_eq (st : SysState) (pid jid : Nat) (db : Option Int) :
    _decrease_value_cache st pid (jobKeyPart jid ++ "enqueued_tasks") db
      = cacheSet st (enqueuedTasksKey pid jid)
          (CacheVal.int (decrease_handler db
            (cacheGetInt st (enqueuedTasksKey pid jid)))) := rfl

theorem delete_task_eq (st : SysState) (pid : Nat) (t : String) :
    _delete_task_name_cache st pid t
      = cacheSet st (listKey pid)
          (CacheVal.list
            (if (taskListOf st pid).isEmpty then []
             else (taskListOf st pid).filter (fun x => x != t))) := rfl

/-- C1 (amended): `worker_succeeded` moves the cache status only when the
pipeline-keyed enqueued count has reached zero — otherwise it leaves every
status key and every job row untouched; `worker_failed`, by contrast, sets
the terminal cache status `failed` even while the count is still
positive. -/
theorem C1_terminal_status_amended (fuel : Nat) (st : SysState) (jid : Nat)
    (j : JobRec) (t : String) (hj : getJob st jid = some j) :
    (cacheGet (_decrease_value_cache (_delete_task_name_cache st j.pipeline_id t)
        j.pipeline_id (jobKeyPart j.id ++ "enqueued_tasks")
        (some j.enqueued_workers_count))
        (enqueuedTasksKey j.pipeline_id j.id) ≠ some (CacheVal.int 0) →
      (∀ p q, cacheGet (Job.worker_succeeded fuel st jid t) (statusKey p q)
          = cacheGet st (statusKey p q)) ∧
      (Job.worker_succeeded fuel st jid t).jobs = st.jobs) ∧
    (cacheGet (Job.set_failed_status
        (_decrease_value_cache (_delete_task_name_cache st j.pipeline_id t)
          j.pipeline_id (jobKeyPart j.id ++ "enqueued_tasks") none) jid)
        (enqueuedTasksKey j.pipeline_id j.id) ≠ some (CacheVal.int 0) →
      cacheGet (Job.worker_failed fuel st jid t) (statusKey j.pipeline_id j.id)
        = some (CacheVal.str "failed")) := by
  constructor
  · intro hA
    have hws : Job.worker_succeeded fuel st jid t
        = _decrease_value_cache (_delete_task_name_cache st j.pipeline_id t)
            j.pipeline_id (jobKeyPart j.id ++ "enqueued_tasks")
            (some j.enqueued_workers_count) := by
      rw [Job.worker_succeeded, hj]
      dsimp only
      rw [if_neg (by simp [hA])]
    rw [hws]
    constructor
    · intro p q
      rw [decrease_enqueued_eq,
        cacheGet_cacheSet_ne _ _ _ _ (statusKey_ne_enqueuedTasksKey p q _ _),
        delete_task_eq,
        cacheGet_cacheSet_ne _ _ _ _ (statusKey_ne_listKey p q _)]
    · simp [_decrease_value_cache, _delete_task_name_cache]
  · intro hB
    have hgj : getJob (_decrease_value_cache (_delete_task_name_cache st j.pipeline_id t)
        j.pipeline_id (jobKeyPart j.id ++ "enqueued_tasks") none) jid = some j := by
      rw [getJob_congr st
        (_decrease_value_cache (_delete_task_name_cache st j.pipeline_id t)
          j.pipeline_id (jobKeyPart j.id ++ "enqueued_tasks") none) jid
        (by simp [_decrease_value_cache, _delete_task_name_cache])]
      exact hj
    have hwf : Job.worker_failed fuel st jid t
        = Job.set_failed_status
            (_decrease_value_cache (_delete_task_name_cache st j.pipeline_id t)
              j.pipeline_id (jobKeyPart j.id ++ "enqueued_tasks") none) jid := by
      rw [Job.worker_failed, hj]
      dsimp only
      rw [if_neg (by simp [hB])]
    rw [hwf, Job.set_failed_status, hgj]
    dsimp only
    exact cacheGet_cacheSet_self _ _ _

/-- C1 (witness): a job with three outstanding tasks receives one failure
callback; the count stays positive, yet the cache status is already the
terminal `failed`. -/
theorem C1_terminal_status_amended_witness :
    cacheGet (Job.worker_failed 4 threeTaskState 6 "r1") (statusKey 1 6)
      = some (CacheVal.str "failed") :=
  (C1_terminal_status_amended 4 threeTaskState 6
    { id := 6, name := "C", status := "running", status_changed_at := none,
      worker_class := "W", pipeline_id := 1, enqueued_workers_count := 3 }
    "r1" (by decide)).2 (by decide)

@[simp] theorem setJob_taskQueue (st : SysState) (j : JobRec) :
    (setJob st j).taskQueue = st.taskQueue := rfl

@[simp] theorem setJob_mailer (st : SysState) (j : JobRec) :
    (setJob st j).mailerNotifications = st.mailerNotifications := rfl

@[simp] theorem setJob_uuids (st : SysState) (j : JobRec) :
    (setJob st j).uuids = st.uuids := rfl

@[simp] theorem freshUuid_cache (st : SysState) : (freshUuid st).2.cache = st.cache := by
  unfold freshUuid; cases st.uuids <;> rfl

@[simp] theorem freshUuid_jobs (st : SysState) : (freshUuid st).2.jobs = st.jobs := by
  unfold freshUuid; cases st.uuids <;> rfl

@[simp] theorem freshUuid_taskQueue (st : SysState) :
    (freshUuid st).2.taskQueue = st.taskQueue := by
  unfold freshUuid; cases st.uuids <;> rfl

@[simp] theorem freshUuid_pipeline (st : SysState) :
    (freshUuid st).2.pipeline = st.pipeline := by
  unfold freshUuid; cases st.uuids <;> rfl

@[simp] theorem freshUuid_conditions (st : SysState) :
    (freshUuid st).2.conditions = st.conditions := by
  unfold freshUuid; cases st.uuids <;> rfl

@[simp] theorem freshUuid_now (st : SysState) : (freshUuid st).2.now = st.now := by
  unfold freshUuid; cases st.uuids <;> rfl

theorem cacheGet_congr (st st' : SysState) (k : String) (h : st'.cache = st.cache) :
    cacheGet st' k = cacheGet st k := by
  unfold cacheGet; rw [h]

theorem cacheGetInt_congr (st st' : SysState) (k : String) (h : st'.cache = st.cache) :
    cacheGetInt st' k = cacheGetInt st k := by
  unfold cacheGetInt; rw [cacheGet_congr st st' k h]

theorem increase_handler_none_getD (o : Option Int) :
    increase_handler none o = o.getD 0 + 1 := by
  cases o with
  | none => rfl
  | some c =>
    by_cases hc : c = 0 <;> simp [increase_handler, hc]

theorem taskListOf_congr (st st' : SysState) (pid : Nat) (h : st'.cache = st.cache) :
    taskListOf st' pid = taskListOf st pid := by
  unfold taskListOf; rw [cacheGet_congr st st' _ h]

theorem add_task_value (st : SysState) (pid : Nat) (n : String) :
    cacheGet (_add_task_name_cache st pid n) (listKey pid)
      = some (CacheVal.list (taskListOf st pid ++ [n])) := by
  by_cases h : (taskListOf st pid).isEmpty
  · have he : taskListOf st pid = [] := by
      cases hl : taskListOf st pid with
      | nil => rfl
      | cons a l => rw [hl] at h; simp [List.isEmpty] at h
    simp [_add_task_name_cache, h, he]
  · simp [_add_task_name_cache, h]

theorem find?_map_replace (l : List JobRec) (jid : Nat) (j j' : JobRec)
    (hfind : l.find? (fun x => x.id == jid) = some j) (hid : j'.id = j.id) :
    (l.map (fun x => if x.id == j'.id then j' else x)).find? (fun x => x.id == jid)
      = some j' := by
  induction l with
  | nil => simp at hfind
  | cons x rest ih =>
    by_cases hx : x.id = jid
    · have hxj : x = j := by
        simpa [List.find?, hx] using hfind
      subst hxj
      have h1 : (x.id == j'.id) = true := by simp [hid, hx]
      have h2 : (j'.id == jid) = true := by simp [hid, hx]
      simp [List.map, h1, List.find?, h2]
    · have hxf : (x.id == jid) = false := by simp [hx]
      have hfind' : rest.find? (fun x => x.id == jid) = some j := by
        simpa [List.find?, hxf] using hfind
      have hjid : j.id = jid := by simpa using List.find?_some hfind'
      have hxj : (x.id == j'.id) = false := by simp [hid, hjid, hx]
      rw [List.map_cons, if_neg (by simp [hxj])]
      have hskip : List.find? (fun y => y.id == jid)
          (x :: (rest.map fun y => if y.id == j'.id then j' else y))
          = List.find? (fun y => y.id == jid)
              (rest.map fun y => if y.id == j'.id then j' else y) := by
        simp only [List.find?, hxf]
      rw [hskip]
      exact ih hfind'

theorem getJob_setJob (st : SysState) (jid : Nat) (j j' : JobRec)
    (hfind : getJob st jid = some j) (hid : j'.id = j.id) :
    getJob (setJob st j') jid = some j' := by
  unfold getJob setJob at *
  exact find?_map_replace st.jobs jid j j' hfind hid

/-- C9 (amended): enqueue requires effective status `running` (false
otherwise); on success it mints the unique name
`sanitize(pipeline.name_job.name_job.worker_class) + "_" + uuid` from the
**stored** worker class of the job, appends it to the task list, submits the
task with payload `(job_id, worker_class-argument, worker_params, name)`,
and increments both the job-scoped enqueued counter and the persisted
`enqueued_workers_count`. -/
theorem C9_enqueue_amended (st : SysState) (jid : Nat) (j : JobRec) (wc wp : String)
    (delay : Nat) (hj : getJob st jid = some j) :
    (Job.get_status st j ≠ "running" → Job.enqueue st jid wc wp delay = (st, false)) ∧
    (Job.get_status st j = "running" →
      (Job.enqueue st jid wc wp delay).2 = true ∧
      (Job.enqueue st jid wc wp delay).1.taskQueue = st.taskQueue ++
        [{ target := "job-service",
           name := escapeTaskName (st.pipeline.name ++ "_" ++ j.name ++ "_" ++ j.worker_class)
             ++ "_" ++ (freshUuid st).1,
           url := "/task", job_id := j.id, worker_class := wc, worker_params := wp,
           task_name := escapeTaskName (st.pipeline.name ++ "_" ++ j.name ++ "_" ++ j.worker_class)
             ++ "_" ++ (freshUuid st).1,
           countdown := delay }] ∧
      cacheGet (Job.enqueue st jid wc wp delay).1 (listKey j.pipeline_id)
        = some (CacheVal.list (taskListOf st j.pipeline_id ++
            [escapeTaskName (st.pipeline.name ++ "_" ++ j.name ++ "_" ++ j.worker_class)
              ++ "_" ++ (freshUuid st).1])) ∧
      cacheGetInt (Job.enqueue st jid wc wp delay).1 (enqueuedTasksKey j.pipeline_id j.id)
        = some ((cacheGetInt st (enqueuedTasksKey j.pipeline_id j.id)).getD 0 + 1) ∧
      getJob (Job.enqueue st jid wc wp delay).1 jid
        = some { j with enqueued_workers_count := j.enqueued_workers_count + 1 }) := by
  constructor
  · intro hnr
    rw [Job.enqueue, hj]
    dsimp only
    rw [if_pos hnr]
  · intro hr
    rw [Job.enqueue, hj]
    dsimp only
    rw [if_neg (by simp [hr])]
    refine ⟨rfl, ?_, ?_, ?_, ?_⟩
    · simp [_increase_value_cache, _add_task_name_cache]
    · rw [increase_enqueued_eq,
        cacheGet_cacheSet_ne _ _ _ _ (Ne.symm (enqueuedTasksKey_ne_listKey _ _ _))]
      rw [cacheGet_congr
        (_add_task_name_cache (freshUuid st).2 j.pipeline_id
          (escapeTaskName (st.pipeline.name ++ "_" ++ j.name ++ "_" ++ j.worker_class)
            ++ "_" ++ (freshUuid st).1)) _ _ (by simp [setJob])]
      rw [add_task_value,
        taskListOf_congr st (freshUuid st).2 _ (freshUuid_cache st)]
    · rw [increase_enqueued_eq, cacheGetInt_cacheSet_self]
      rw [cacheGetInt_congr
        (_add_task_name_cache (freshUuid st).2 j.pipeline_id
          (escapeTaskName (st.pipeline.name ++ "_" ++ j.name ++ "_" ++ j.worker_class)
            ++ "_" ++ (freshUuid st).1)) _ _ (by simp [setJob])]
      unfold _add_task_name_cache
      rw [cacheGetInt_cacheSet_ne _ _ _ _ (enqueuedTasksKey_ne_listKey _ _ _)]
      rw [cacheGetInt_congr st (freshUuid st).2 _ (freshUuid_cache st)]
      rw [increase_handler_none_getD]
    · rw [increase_enqueued_eq]
      rw [getJob_congr
        (setJob
          { _add_task_name_cache (freshUuid st).2 j.pipeline_id
              (escapeTaskName (st.pipeline.name ++ "_" ++ j.name ++ "_" ++ j.worker_class)
                ++ "_" ++ (freshUuid st).1) with
            taskQueue :=
              (_add_task_name_cache (freshUuid st).2 j.pipeline_id
                (escapeTaskName (st.pipeline.name ++ "_" ++ j.name ++ "_" ++ j.worker_class)
                  ++ "_" ++ (freshUuid st).1)).taskQueue ++
              [{ target := "job-service",
                 name := escapeTaskName (st.pipeline.name ++ "_" ++ j.name ++ "_" ++ j.worker_class)
                   ++ "_" ++ (freshUuid st).1,
                 url := "/task", job_id := j.id, worker_class := wc, worker_params := wp,
                 task_name := escapeTaskName (st.pipeline.name ++ "_" ++ j.name ++ "_" ++ j.worker_class)
                   ++ "_" ++ (freshUuid st).1,
                 countdown := delay }] }
          { j with enqueued_workers_count := j.enqueued_workers_count + 1 })
        _ jid (by simp)]
      refine getJob_setJob _ jid j _ ?_ rfl
      rw [getJob_congr st _ jid (by simp [_add_task_name_cache])]
      exact hj

/-- C9 (witness): the amended enqueue behavior at a running job, showing
the persisted `enqueued_workers_count` incremented from 1 to 2. -/
theorem C9_enqueue_amended_witness :
    getJob (Job.enqueue classMismatchState 2 "B" "pp" 0).1 2
      = some { id := 2, name := "Jay", status := "running", status_changed_at := none,
               worker_class := "A", pipeline_id := 1, enqueued_workers_count := 2 } :=
  ((C9_enqueue_amended classMismatchState 2
    { id := 2, name := "Jay", status := "running", status_changed_at := none,
      worker_class := "A", pipeline_id := 1, enqueued_workers_count := 1 }
    "B" "pp" 0 (by decide)).2 (by decide)).2.2.2.2

/-- C10 (confirmed): whenever the persisted status of the pipeline is in
`idle`/`finished`/`failed`/`succeeded`, `Pipeline.start()` resets the cache
(`failed_jobs = 0`, `remaining_jobs = |jobs|`, empty task list) **before**
validating that the pipeline has at least one job in a startable state; a
start that fails either validation therefore returns false with the
counters already reset. -/
theorem C10_start_resets_before_validation (fuel : Nat) (st : SysState)
    (h1 : (["idle", "finished", "failed", "succeeded"].contains st.pipeline.status) = true)
    (h2 : pipelineJobs st = [] ∨ ∃ j, j ∈ pipelineJobs st ∧
      (["idle", "succeeded", "failed"].contains (Job.get_status st j)) = false) :
    (Pipeline.start fuel st).2 = false ∧
    cacheGet (Pipeline.start fuel st).1 (failedJobsKey st.pipeline.id)
      = some (CacheVal.int 0) ∧
    cacheGet (Pipeline.start fuel st).1 (remainingJobsKey st.pipeline.id)
      = some (CacheVal.int ((pipelineJobs st).length : Int)) ∧
    cacheGet (Pipeline.start fuel st).1 (listKey st.pipeline.id)
      = some (CacheVal.list []) := by
  have hpj : pipelineJobs (Pipeline.get_ready st) = pipelineJobs st := by
    unfold pipelineJobs Pipeline.get_ready
    simp
  have hgs : ∀ j, Job.get_status (Pipeline.get_ready st) j = Job.get_status st j := by
    intro j
    unfold Job.get_status Pipeline.get_ready
    rw [cacheGet_cacheSet_ne _ _ _ _ (statusKey_ne_listKey _ _ _),
      cacheGet_cacheSet_ne _ _ _ _ (statusKey_ne_remainingJobsKey _ _ _),
      cacheGet_cacheSet_ne _ _ _ _ (statusKey_ne_failedJobsKey _ _ _)]
  have hres : Pipeline.start fuel st = (Pipeline.get_ready st, false) := by
    unfold Pipeline.start
    rw [if_pos h1]
    dsimp only
    rcases h2 with hempty | ⟨j, hmem, hbad⟩
    · rw [hpj, hempty]
      rw [if_pos (by decide)]
    · have hlen : ¬ (((pipelineJobs (Pipeline.get_ready st)).map
          (fun j => j.id)).length < 1) := by
        rw [hpj]
        have hpos : 0 < (pipelineJobs st).length :=
          List.length_pos.mpr (List.ne_nil_of_mem hmem)
        simp only [List.length_map]
        omega
      rw [if_neg hlen]
      have hall : ((pipelineJobs (Pipeline.get_ready st)).all
          (fun j => ["idle", "succeeded", "failed"].contains
            (Job.get_status (Pipeline.get_ready st) j))) = false := by
        rw [hpj]
        refine List.all_eq_false.mpr ⟨j, hmem, ?_⟩
        rw [hgs j]
        simp at hbad
        simpa using hbad
      have hcond : (!((pipelineJobs (Pipeline.get_ready st)).all
          (fun j => ["idle", "succeeded", "failed"].contains
            (Job.get_status (Pipeline.get_ready st) j)))) = true := by
        rw [hall]
        rfl
      rw [if_pos hcond]
  rw [hres]
  refine ⟨rfl, ?_, ?_, ?_⟩
  · unfold Pipeline.get_ready
    rw [cacheGet_cacheSet_ne _ _ _ _ (Ne.symm (listKey_ne_failedJobsKey _ _)),
      cacheGet_cacheSet_ne _ _ _ _ (failedJobsKey_ne_remainingJobsKey _ _),
      cacheGet_cacheSet_self]
  · unfold Pipeline.get_ready
    rw [cacheGet_cacheSet_ne _ _ _ _ (Ne.symm (listKey_ne_remainingJobsKey _ _)),
      cacheGet_cacheSet_self]
  · unfold Pipeline.get_ready
    rw [cacheGet_cacheSet_self]

/-- C10 (witness): an idle zero-job pipeline whose stale `failed_jobs`
counter 7 is reset to 0 by a start that is then rejected. -/
theorem C10_start_resets_before_validation_witness :
    cacheGet staleCounterState (failedJobsKey 4) = some (CacheVal.int 7) ∧
    ((Pipeline.start 3 staleCounterState).2 = false ∧
      cacheGet (Pipeline.start 3 staleCounterState).1 (failedJobsKey 4)
        = some (CacheVal.int 0) ∧
      cacheGet (Pipeline.start 3 staleCounterState).1 (remainingJobsKey 4)
        = some (CacheVal.int 0) ∧
      cacheGet (Pipeline.start 3 staleCounterState).1 (listKey 4)
        = some (CacheVal.list [])) :=
  ⟨by decide,
    C10_start_resets_before_validation 3 staleCounterState (by decide)
      (Or.inl (by decide))⟩

theorem goodCounters_iff (st : SysState) :
    goodCounters st ↔
      (∀ v, cacheGetInt st (failedJobsKey st.pipeline.id) = some v → 0 ≤ v) ∧
      (∀ v, cacheGetInt st (remainingJobsKey st.pipeline.id) = some v →
        0 ≤ v ∧ v ≤ ((pipelineJobs st).length : Int)) := by
  unfold goodCounters goodCountersB
  cases hf : cacheGetInt st (failedJobsKey st.pipeline.id) <;>
    cases hr : cacheGetInt st (remainingJobsKey st.pipeline.id) <;>
    simp

theorem WFJobs_congr (st st' : SysState) (hj : st'.jobs = st.jobs)
    (hp : st'.pipeline.id = st.pipeline.id) (h : WFJobs st) : WFJobs st' := by
  intro j hjm
  rw [hp]
  exact h j (hj ▸ hjm)

theorem pipelineJobs_congr (st st' : SysState) (hj : st'.jobs = st.jobs)
    (hp : st'.pipeline.id = st.pipeline.id) : pipelineJobs st' = pipelineJobs st := by
  unfold pipelineJobs
  rw [hj, hp]

theorem pipelineJobs_eq_of_WF (st : SysState) (h : WFJobs st) :
    pipelineJobs st = st.jobs := by
  unfold pipelineJobs
  refine List.filter_eq_self.mpr (fun j hj => by simp [h j hj])

theorem goodCounters_of_parts (st st' : SysState)
    (hpid : st'.pipeline.id = st.pipeline.id)
    (hcache : st'.cache = st.cache)
    (hlen : (pipelineJobs st').length = (pipelineJobs st).length)
    (h : goodCounters st) : goodCounters st' := by
  unfold goodCounters goodCountersB at h ⊢
  rw [hpid, hlen,
    show cacheGetInt st' = cacheGetInt st from
      funext fun k => cacheGetInt_congr st st' k hcache]
  exact h

theorem goodCounters_cacheSet_other (st : SysState) (k : String) (v : CacheVal)
    (h1 : k ≠ failedJobsKey st.pipeline.id) (h2 : k ≠ remainingJobsKey st.pipeline.id)
    (h : goodCounters st) : goodCounters (cacheSet st k v) := by
  unfold goodCounters goodCountersB at h ⊢
  rw [cacheSet_pipeline,
    cacheGetInt_cacheSet_ne st k _ v (Ne.symm h1),
    cacheGetInt_cacheSet_ne st k _ v (Ne.symm h2),
    pipelineJobs_congr st (cacheSet st k v) (cacheSet_jobs st k v) rfl]
  exact h

theorem goodCounters_set_failed_value (st : SysState) (v : Int) (hv : 0 ≤ v)
    (h : goodCounters st) :
    goodCounters (cacheSet st (failedJobsKey st.pipeline.id) (CacheVal.int v)) := by
  unfold goodCounters goodCountersB at h ⊢
  rw [cacheSet_pipeline, cacheGetInt_cacheSet_self,
    cacheGetInt_cacheSet_ne st _ _ _ (Ne.symm (failedJobsKey_ne_remainingJobsKey _ _)),
    pipelineJobs_congr st _ (cacheSet_jobs st _ _) rfl]
  rw [Bool.and_eq_true] at h ⊢
  exact ⟨decide_eq_true hv, h.2⟩

theorem goodCounters_set_remaining_value (st : SysState) (v : Int)
    (hv : 0 ≤ v ∧ v ≤ ((pipelineJobs st).length : Int)) (h : goodCounters st) :
    goodCounters (cacheSet st (remainingJobsKey st.pipeline.id) (CacheVal.int v)) := by
  unfold goodCounters goodCountersB at h ⊢
  rw [cacheSet_pipeline, cacheGetInt_cacheSet_self,
    cacheGetInt_cacheSet_ne st _ _ _ (failedJobsKey_ne_remainingJobsKey _ _),
    pipelineJobs_congr st _ (cacheSet_jobs st _ _) rfl]
  rw [Bool.and_eq_true] at h ⊢
  exact ⟨h.1, decide_eq_true hv⟩

theorem increase_handler_none_nonneg (o : Option Int)
    (ho : ∀ v, o = some v → 0 ≤ v) : 0 ≤ increase_handler none o := by
  cases o with
  | none => simp [increase_handler]
  | some c =>
    have hc := ho c rfl
    by_cases h0 : c = 0 <;> simp [increase_handler, h0] <;> omega

theorem decrease_handler_bounds (n : Int) (hn : 0 ≤ n) (o : Option Int)
    (ho : ∀ v, o = some v → 0 ≤ v ∧ v ≤ n) :
    0 ≤ decrease_handler (some n) o ∧ decrease_handler (some n) o ≤ n := by
  cases o with
  | none =>
    by_cases h0 : n = 0 <;> simp [decrease_handler, h0] <;> omega
  | some c =>
    have hc := ho c rfl
    by_cases h0 : c = 0
    · by_cases hn0 : n = 0 <;> simp [decrease_handler, h0, hn0] <;> omega
    · simp [decrease_handler, h0] <;> omega

theorem goodCounters_increase_failed (st : SysState) (h : goodCounters st) :
    goodCounters (_increase_value_cache st st.pipeline.id "failed_jobs" none) := by
  rw [increase_failed_eq]
  apply goodCounters_set_failed_value
  · exact increase_handler_none_nonneg _ (((goodCounters_iff st).mp h).1)
  · exact h

theorem goodCounters_decrease_remaining (st : SysState) (h : goodCounters st) :
    goodCounters (_decrease_value_cache st st.pipeline.id "remaining_jobs"
      (some ((pipelineJobs st).length : Int))) := by
  rw [decrease_remaining_eq]
  apply goodCounters_set_remaining_value
  · exact decrease_handler_bounds _ (by positivity) _ (((goodCounters_iff st).mp h).2)
  · exact h

theorem WFJobs_setJob (st : SysState) (j' : JobRec) (h : WFJobs st)
    (hpid : j'.pipeline_id = st.pipeline.id) : WFJobs (setJob st j') := by
  intro x hx
  unfold setJob at hx
  simp only [List.mem_map] at hx
  obtain ⟨a, ha, hax⟩ := hx
  rw [show (setJob st j').pipeline.id = st.pipeline.id from rfl]
  split at hax
  · rw [← hax]; exact hpid
  · rw [← hax]; exact h a ha

theorem inv_cacheSet_other (st : SysState) (k : String) (v : CacheVal)
    (h1 : k ≠ failedJobsKey st.pipeline.id) (h2 : k ≠ remainingJobsKey st.pipeline.id)
    (h : WFJobs st ∧ goodCounters st) :
    WFJobs (cacheSet st k v) ∧ goodCounters (cacheSet st k v) :=
  ⟨WFJobs_congr st _ rfl rfl h.1, goodCounters_cacheSet_other st k v h1 h2 h.2⟩

theorem inv_setJob (st : SysState) (j' : JobRec) (hpid : j'.pipeline_id = st.pipeline.id)
    (h : WFJobs st ∧ goodCounters st) :
    WFJobs (setJob st j') ∧ goodCounters (setJob st j') := by
  have wf' := WFJobs_setJob st j' h.1 hpid
  refine ⟨wf', goodCounters_of_parts st (setJob st j') rfl rfl ?_ h.2⟩
  rw [pipelineJobs_eq_of_WF _ wf', pipelineJobs_eq_of_WF _ h.1]
  simp [setJob]

theorem inv_set_pipeline_status (st : SysState) (p' : PipelineRec)
    (hid : p'.id = st.pipeline.id) (h : WFJobs st ∧ goodCounters st) :
    WFJobs { st with pipeline := p' } ∧ goodCounters { st with pipeline := p' } := by
  refine ⟨WFJobs_congr st _ rfl hid h.1,
    goodCounters_of_parts st _ hid rfl ?_ h.2⟩
  rw [pipelineJobs_congr st { st with pipeline := p' } rfl hid]

theorem inv_set_failed_status (st : SysState) (jid : Nat)
    (h : WFJobs st ∧ goodCounters st) :
    WFJobs (Job.set_failed_status st jid) ∧ goodCounters (Job.set_failed_status st jid) := by
  cases hgj : getJob st jid with
  | none => simpa [Job.set_failed_status, hgj] using h
  | some j =>
    have hjm : j ∈ st.jobs := List.mem_of_find?_eq_some hgj
    have hpid : j.pipeline_id = st.pipeline.id := h.1 j hjm
    have hfilter : List.filter (fun x => x.pipeline_id == j.pipeline_id) st.jobs
        = pipelineJobs st := by
      unfold pipelineJobs
      rw [hpid]
    simp only [Job.set_failed_status, hgj]
    rw [hfilter, hpid]
    have h1 : WFJobs (_increase_value_cache st st.pipeline.id "failed_jobs" none) ∧
        goodCounters (_increase_value_cache st st.pipeline.id "failed_jobs" none) :=
      ⟨WFJobs_congr st _ rfl rfl h.1, goodCounters_increase_failed st h.2⟩
    have h2 : WFJobs (_decrease_value_cache
          (_increase_value_cache st st.pipeline.id "failed_jobs" none)
          st.pipeline.id "remaining_jobs" (some ((pipelineJobs st).length : Int))) ∧
        goodCounters (_decrease_value_cache
          (_increase_value_cache st st.pipeline.id "failed_jobs" none)
          st.pipeline.id "remaining_jobs" (some ((pipelineJobs st).length : Int))) :=
      ⟨WFJobs_congr _ _ rfl rfl h1.1,
        goodCounters_decrease_remaining _ h1.2⟩
    have h3 := inv_cacheSet_other _ (statusKey st.pipeline.id j.id)
      (CacheVal.str "failed") (statusKey_ne_failedJobsKey _ _ _)
      (statusKey_ne_remainingJobsKey _ _ _) h2
    have h4 := inv_setJob
      (cacheSet (_decrease_value_cache
          (_increase_value_cache st st.pipeline.id "failed_jobs" none)
          st.pipeline.id "remaining_jobs" (some ((pipelineJobs st).length : Int)))
        (statusKey st.pipeline.id j.id) (CacheVal.str "failed"))
      { j with
          status := "failed"
          status_changed_at := some st.now
          pipeline_id := st.pipeline.id } rfl h3
    exact inv_set_pipeline_status _ _ (by split <;> rfl) h4

theorem inv_set_succeeded_status (st : SysState) (jid : Nat)
    (h : WFJobs st ∧ goodCounters st) :
    WFJobs (Job.set_succeeded_status st jid) ∧
      goodCounters (Job.set_succeeded_status st jid) := by
  cases hgj : getJob st jid with
  | none => simpa [Job.set_succeeded_status, hgj] using h
  | some j =>
    have hjm : j ∈ st.jobs := List.mem_of_find?_eq_some hgj
    have hpid : j.pipeline_id = st.pipeline.id := h.1 j hjm
    have hfilter : List.filter (fun x => x.pipeline_id == j.pipeline_id) st.jobs
        = pipelineJobs st := by
      unfold pipelineJobs
      rw [hpid]
    simp only [Job.set_succeeded_status, hgj]
    rw [hfilter, hpid]
    have h1 : WFJobs (_decrease_value_cache st st.pipeline.id "remaining_jobs"
          (some ((pipelineJobs st).length : Int))) ∧
        goodCounters (_decrease_value_cache st st.pipeline.id "remaining_jobs"
          (some ((pipelineJobs st).length : Int))) :=
      ⟨WFJobs_congr st _ rfl rfl h.1, goodCounters_decrease_remaining st h.2⟩
    have h2 := inv_cacheSet_other _ (statusKey st.pipeline.id j.id)
      (CacheVal.str "succeeded") (statusKey_ne_failedJobsKey _ _ _)
      (statusKey_ne_remainingJobsKey _ _ _) h1
    exact inv_setJob
      (cacheSet (_decrease_value_cache st st.pipeline.id "remaining_jobs"
          (some ((pipelineJobs st).length : Int)))
        (statusKey st.pipeline.id j.id) (CacheVal.str "succeeded"))
      { j with
          status := "succeeded"
          status_changed_at := some st.now
          pipeline_id := st.pipeline.id } rfl h2

theorem inv_prepare_for_start (st : SysState) (jid : Nat)
    (h : WFJobs st ∧ goodCounters st) :
    WFJobs (Job.prepare_for_start st jid).1 ∧
      goodCounters (Job.prepare_for_start st jid).1 := by
  cases hgj : getJob st jid with
  | none => simpa [Job.prepare_for_start, hgj] using h
  | some j =>
    simp only [Job.prepare_for_start, hgj]
    split
    · exact inv_cacheSet_other st _ _ (statusKey_ne_failedJobsKey _ _ _)
        (statusKey_ne_remainingJobsKey _ _ _) h
    · exact h

theorem inv_stop_job (st : SysState) (jid : Nat)
    (h : WFJobs st ∧ goodCounters st) :
    WFJobs (Job.stop st jid).1 ∧ goodCounters (Job.stop st jid).1 := by
  cases hgj : getJob st jid with
  | none => simpa [Job.stop, hgj] using h
  | some j =>
    have hpid : j.pipeline_id = st.pipeline.id :=
      h.1 j (List.mem_of_find?_eq_some hgj)
    simp only [Job.stop, hgj]
    split
    · exact inv_setJob st _ hpid h
    · split
      · exact inv_setJob st _ hpid h
      · exact h

theorem inv_freshUuid (st : SysState) (h : WFJobs st ∧ goodCounters st) :
    WFJobs (freshUuid st).2 ∧ goodCounters (freshUuid st).2 :=
  ⟨WFJobs_congr st _ (freshUuid_jobs st) (by rw [freshUuid_pipeline]) h.1,
    goodCounters_of_parts st _ (by rw [freshUuid_pipeline]) (freshUuid_cache st)
      (by rw [pipelineJobs_congr st _ (freshUuid_jobs st) (by rw [freshUuid_pipeline])])
      h.2⟩

theorem inv_set_taskQueue (st : SysState) (q : List TaskRec)
    (h : WFJobs st ∧ goodCounters st) :
    WFJobs { st with taskQueue := q } ∧ goodCounters { st with taskQueue := q } :=
  ⟨WFJobs_congr st _ rfl rfl h.1, goodCounters_of_parts st _ rfl rfl rfl h.2⟩

theorem inv_enqueue (st : SysState) (jid : Nat) (wc wp : String) (delay : Nat)
    (h : WFJobs st ∧ goodCounters st) :
    WFJobs (Job.enqueue st jid wc wp delay).1 ∧
      goodCounters (Job.enqueue st jid wc wp delay).1 := by
  cases hgj : getJob st jid with
  | none => simpa [Job.enqueue, hgj] using h
  | some j =>
    have hpid : j.pipeline_id = st.pipeline.id :=
      h.1 j (List.mem_of_find?_eq_some hgj)
    simp only [Job.enqueue, hgj]
    split
    · exact h
    · refine inv_cacheSet_other _ (enqueuedTasksKey j.pipeline_id j.id) _
        (enqueuedTasksKey_ne_failedJobsKey _ _ _)
        (enqueuedTasksKey_ne_remainingJobsKey _ _ _) ?_
      refine inv_setJob _ _ ?_ ?_
      · simp [_add_task_name_cache, hpid]
      · refine inv_set_taskQueue _ _ ?_
        refine inv_cacheSet_other _ (listKey j.pipeline_id) _
          (listKey_ne_failedJobsKey _ _) (listKey_ne_remainingJobsKey _ _) ?_
        exact inv_freshUuid st h

theorem inv_run (st : SysState) (jid : Nat)
    (h : WFJobs st ∧ goodCounters st) :
    WFJobs (Job.run st jid) ∧ goodCounters (Job.run st jid) := by
  cases hgj : getJob st jid with
  | none => simpa [Job.run, hgj] using h
  | some j =>
    have hpid : j.pipeline_id = st.pipeline.id :=
      h.1 j (List.mem_of_find?_eq_some hgj)
    simp only [Job.run, hgj]
    exact inv_enqueue _ jid _ _ _
      (inv_cacheSet_other _ _ _ (statusKey_ne_failedJobsKey _ _ _)
        (statusKey_ne_remainingJobsKey _ _ _) (inv_setJob st _ hpid h))

theorem inv_finish (st : SysState) (h : WFJobs st ∧ goodCounters st) :
    WFJobs (Pipeline._finish st) ∧ goodCounters (Pipeline._finish st) := by
  unfold Pipeline._finish
  refine ⟨WFJobs_congr st _ rfl rfl h.1,
    goodCounters_of_parts st _ rfl rfl ?_ h.2⟩
  exact congrArg List.length (pipelineJobs_congr st _ rfl rfl)

theorem inv_job_finished (st : SysState) (h : WFJobs st ∧ goodCounters st) :
    WFJobs (Pipeline.job_finished st).1 ∧ goodCounters (Pipeline.job_finished st).1 := by
  unfold Pipeline.job_finished
  split
  · exact inv_finish st h
  · exact h

theorem inv_startManyGo (rec : SysState → Nat → SysState × Bool)
    (hrec : ∀ st jid, WFJobs st ∧ goodCounters st →
      WFJobs (rec st jid).1 ∧ goodCounters (rec st jid).1) :
    ∀ (jids : List Nat) (st : SysState), WFJobs st ∧ goodCounters st →
      WFJobs (startManyGo rec st jids) ∧ goodCounters (startManyGo rec st jids) := by
  intro jids
  induction jids with
  | nil => intro st h; exact h
  | cons d rest ih =>
    intro st h
    exact ih (rec st d).1 (hrec st d h)

theorem inv_startDepsGo (rec : SysState → Nat → SysState × Bool)
    (hrec : ∀ st jid, WFJobs st ∧ goodCounters st →
      WFJobs (rec st jid).1 ∧ goodCounters (rec st jid).1)
    (st : SysState) (jid : Nat) (h : WFJobs st ∧ goodCounters st) :
    WFJobs (startDepsGo rec st jid) ∧ goodCounters (startDepsGo rec st jid) := by
  unfold startDepsGo
  exact inv_job_finished _ (inv_startManyGo rec hrec _ st h)

theorem inv_startLoopGo (rec : SysState → Nat → SysState × Bool)
    (hrec : ∀ st jid, WFJobs st ∧ goodCounters st →
      WFJobs (rec st jid).1 ∧ goodCounters (rec st jid).1) :
    ∀ (scs : List StartConditionRec) (st : SysState) (jid : Nat),
      WFJobs st ∧ goodCounters st →
      WFJobs (startLoopGo rec st jid scs).1 ∧
        goodCounters (startLoopGo rec st jid scs).1 := by
  intro scs
  induction scs with
  | nil =>
    intro st jid h
    exact inv_run st jid h
  | cons sc rest ih =>
    intro st jid h
    unfold startLoopGo
    split
    · split
      · exact ih st jid h
      · exact h
    · exact inv_startDepsGo rec hrec _ jid (inv_set_failed_status st jid h)

theorem inv_job_start :
    ∀ (fuel : Nat) (st : SysState) (jid : Nat), WFJobs st ∧ goodCounters st →
      WFJobs (Job.start fuel st jid).1 ∧ goodCounters (Job.start fuel st jid).1 := by
  intro fuel
  induction fuel with
  | zero => intro st jid h; exact h
  | succ n ih =>
    intro st jid h
    cases hgj : getJob st jid with
    | none => simp only [Job.start, hgj]; exact h
    | some j =>
      simp only [Job.start, hgj]
      split
      · exact h
      · exact inv_startLoopGo (Job.start n) (fun s i hi => ih s i hi) _ st jid h

theorem inv_worker_succeeded (fuel : Nat) (st : SysState) (jid : Nat) (t : String)
    (h : WFJobs st ∧ goodCounters st) :
    WFJobs (Job.worker_succeeded fuel st jid t) ∧
      goodCounters (Job.worker_succeeded fuel st jid t) := by
  cases hgj : getJob st jid with
  | none => simpa [Job.worker_succeeded, hgj] using h
  | some j =>
    simp only [Job.worker_succeeded, hgj]
    have h1 : WFJobs (_delete_task_name_cache st j.pipeline_id t) ∧
        goodCounters (_delete_task_name_cache st j.pipeline_id t) :=
      inv_cacheSet_other st (listKey j.pipeline_id) _
        (listKey_ne_failedJobsKey _ _) (listKey_ne_remainingJobsKey _ _) h
    have h2 : WFJobs (_decrease_value_cache (_delete_task_name_cache st j.pipeline_id t)
          j.pipeline_id (jobKeyPart j.id ++ "enqueued_tasks")
          (some j.enqueued_workers_count)) ∧
        goodCounters (_decrease_value_cache (_delete_task_name_cache st j.pipeline_id t)
          j.pipeline_id (jobKeyPart j.id ++ "enqueued_tasks")
          (some j.enqueued_workers_count)) :=
      inv_cacheSet_other _ (enqueuedTasksKey j.pipeline_id j.id) _
        (enqueuedTasksKey_ne_failedJobsKey _ _ _)
        (enqueuedTasksKey_ne_remainingJobsKey _ _ _) h1
    split
    · split
      · exact inv_startDepsGo (Job.start fuel) (fun s i hi => inv_job_start fuel s i hi)
          _ jid (inv_set_succeeded_status _ jid h2)
      · exact inv_startDepsGo (Job.start fuel) (fun s i hi => inv_job_start fuel s i hi)
          _ jid (inv_set_failed_status _ jid h2)
    · exact h2

theorem inv_worker_failed (fuel : Nat) (st : SysState) (jid : Nat) (t : String)
    (h : WFJobs st ∧ goodCounters st) :
    WFJobs (Job.worker_failed fuel st jid t) ∧
      goodCounters (Job.worker_failed fuel st jid t) := by
  cases hgj : getJob st jid with
  | none => simpa [Job.worker_failed, hgj] using h
  | some j =>
    simp only [Job.worker_failed, hgj]
    have h1 : WFJobs (_delete_task_name_cache st j.pipeline_id t) ∧
        goodCounters (_delete_task_name_cache st j.pipeline_id t) :=
      inv_cacheSet_other st (listKey j.pipeline_id) _
        (listKey_ne_failedJobsKey _ _) (listKey_ne_remainingJobsKey _ _) h
    have h2 : WFJobs (_decrease_value_cache (_delete_task_name_cache st j.pipeline_id t)
          j.pipeline_id (jobKeyPart j.id ++ "enqueued_tasks") none) ∧
        goodCounters (_decrease_value_cache (_delete_task_name_cache st j.pipeline_id t)
          j.pipeline_id (jobKeyPart j.id ++ "enqueued_tasks") none) :=
      inv_cacheSet_other _ (enqueuedTasksKey j.pipeline_id j.id) _
        (enqueuedTasksKey_ne_failedJobsKey _ _ _)
        (enqueuedTasksKey_ne_remainingJobsKey _ _ _) h1
    have h3 := inv_set_failed_status _ jid h2
    split
    · exact inv_startDepsGo (Job.start fuel) (fun s i hi => inv_job_start fuel s i hi)
        _ jid h3
    · exact h3

theorem inv_pipeline_get_ready (st : SysState) (h : WFJobs st ∧ goodCounters st) :
    WFJobs (Pipeline.get_ready st) ∧ goodCounters (Pipeline.get_ready st) := by
  unfold Pipeline.get_ready
  have h1 : WFJobs (cacheSet st (failedJobsKey st.pipeline.id) (CacheVal.int 0)) ∧
      goodCounters (cacheSet st (failedJobsKey st.pipeline.id) (CacheVal.int 0)) :=
    ⟨WFJobs_congr st _ rfl rfl h.1, goodCounters_set_failed_value st 0 le_rfl h.2⟩
  have h2 : WFJobs (cacheSet (cacheSet st (failedJobsKey st.pipeline.id) (CacheVal.int 0))
        (remainingJobsKey st.pipeline.id)
        (CacheVal.int ((pipelineJobs st).length : Int))) ∧
      goodCounters (cacheSet (cacheSet st (failedJobsKey st.pipeline.id) (CacheVal.int 0))
        (remainingJobsKey st.pipeline.id)
        (CacheVal.int ((pipelineJobs st).length : Int))) :=
    ⟨WFJobs_congr _ _ rfl rfl h1.1,
      goodCounters_set_remaining_value _ _ ⟨by positivity, le_refl _⟩ h1.2⟩
  exact inv_cacheSet_other _ (listKey st.pipeline.id) _
    (listKey_ne_failedJobsKey _ _) (listKey_ne_remainingJobsKey _ _) h2

theorem inv_pipelineGetReadyLoop :
    ∀ (jids : List Nat) (st : SysState), WFJobs st ∧ goodCounters st →
      WFJobs (pipelineGetReadyLoop st jids).1 ∧
        goodCounters (pipelineGetReadyLoop st jids).1 := by
  intro jids
  induction jids with
  | nil => intro st h; exact h
  | cons jid rest ih =>
    intro st h
    have hg : WFJobs (Job.get_ready st jid).1 ∧ goodCounters (Job.get_ready st jid).1 :=
      inv_prepare_for_start st jid h
    unfold pipelineGetReadyLoop
    rcases hp : Job.get_ready st jid with ⟨st', b⟩
    rw [hp] at hg
    cases b
    · simp only
      exact hg
    · simp only
      exact ih st' hg

theorem inv_pipeline_start (fuel : Nat) (st : SysState)
    (h : WFJobs st ∧ goodCounters st) :
    WFJobs (Pipeline.start fuel st).1 ∧ goodCounters (Pipeline.start fuel st).1 := by
  unfold Pipeline.start
  split
  · dsimp only
    split
    · exact inv_pipeline_get_ready st h
    · split
      · exact inv_pipeline_get_ready st h
      · rcases hp : pipelineGetReadyLoop (Pipeline.get_ready st)
            ((pipelineJobs (Pipeline.get_ready st)).map (fun j => j.id)) with ⟨st2, b⟩
        have hl := inv_pipelineGetReadyLoop
          ((pipelineJobs (Pipeline.get_ready st)).map (fun j => j.id))
          (Pipeline.get_ready st) (inv_pipeline_get_ready st h)
        rw [hp] at hl
        cases b
        · rw [hp]
          exact hl
        · rw [hp]
          exact inv_set_pipeline_status _ _ rfl
            (inv_startManyGo (Job.start fuel) (fun s i hi => inv_job_start fuel s i hi)
              _ st2 hl)
  · exact h

theorem inv_jobStopLoop :
    ∀ (jids : List Nat) (st : SysState), WFJobs st ∧ goodCounters st →
      WFJobs (jobStopLoop st jids) ∧ goodCounters (jobStopLoop st jids) := by
  intro jids
  induction jids with
  | nil => intro st h; exact h
  | cons jid rest ih =>
    intro st h
    exact ih (Job.stop st jid).1 (inv_stop_job st jid h)

theorem inv_pipeline_stop (st : SysState) (h : WFJobs st ∧ goodCounters st) :
    WFJobs (Pipeline.stop st).1 ∧ goodCounters (Pipeline.stop st).1 := by
  unfold Pipeline.stop
  split
  · exact h
  · dsimp only
    split
    · exact inv_finish _ (inv_jobStopLoop _ st h)
    · exact inv_set_pipeline_status _ _ rfl (inv_jobStopLoop _ st h)

theorem inv_applyOp (st : SysState) (o : Op) (h : WFJobs st ∧ goodCounters st) :
    WFJobs (applyOp st o) ∧ goodCounters (applyOp st o) := by
  cases o with
  | pipelineStart fuel => exact inv_pipeline_start fuel st h
  | pipelineStop => exact inv_pipeline_stop st h
  | workerSucceeded fuel jid t => exact inv_worker_succeeded fuel st jid t h
  | workerFailed fuel jid t => exact inv_worker_failed fuel st jid t h

theorem inv_runOps :
    ∀ (ops : List Op) (st : SysState), WFJobs st ∧ goodCounters st →
      WFJobs (runOps st ops) ∧ goodCounters (runOps st ops) := by
  intro ops
  induction ops with
  | nil => intro st h; exact h
  | cons o rest ih =>
    intro st h
    exact ih (applyOp st o) (inv_applyOp st o h)

/-- C6 (amended): along any sequence of pipeline starts, pipeline stops and
worker callbacks from a state whose jobs belong to the pipeline and whose
cached counters (if present) are in range, every reachable snapshot keeps
`0 ≤ remaining_jobs ≤ |jobs(P)|` and `0 ≤ failed_jobs`; the upper bound on
`failed_jobs` claimed originally does not hold (see the counterexample). -/
theorem C6_counter_bounds_amended (ops : List Op) (st0 : SysState)
    (hWF : WFJobs st0) (hGC : goodCounters st0) :
    goodCounters (runOps st0 ops) :=
  (inv_runOps ops st0 ⟨hWF, hGC⟩).2

/-- C6 (witness): the amended bounds hold after starting a fresh two-job
pipeline and delivering one success callback. -/
theorem C6_counter_bounds_amended_witness :
    goodCounters (runOps freshTwoJobState
      [Op.pipelineStart 8, Op.workerSucceeded 8 2 "k"]) :=
  C6_counter_bounds_amended [Op.pipelineStart 8, Op.workerSucceeded 8 2 "k"]
    freshTwoJobState (by decide) (by rfl)
